import Mathlib

/-!
Verification development for the tap-salesforce extraction tap.

The Python sources under `tap_salesforce/` are shallowly embedded below:
pure functions become Lean functions, the mutable singer state dictionary
becomes an explicit association-list state threaded through the code, and
emitted singer messages (records, state flushes, schema, activate-version)
become an explicit output list.  External library calls (HTTP, the singer
transformer, datetime parsing) are abstracted as parameters; everything
that lives in the repository's own source files is translated statement by
statement.
-/

namespace TapSF

/-- JSON-ish bookmark values as stored in the singer state dictionary.
Bookmark values in this tap are only ever null, booleans, integers,
strings, or flat lists of strings (the `BatchIDs` list), so array
elements are specialised to strings. -/
inductive JVal where
  | null
  | b (x : Bool)
  | i (n : Int)
  | s (x : String)
  | arr (xs : List String)
deriving DecidableEq, Repr

/-- Python truthiness of a bookmark value (`if job_id and batch_ids:` etc.). -/
def JVal.truthy : JVal → Bool
  | .null => false
  | .b x => x
  | .i n => n != 0
  | .s x => x ≠ ""
  | .arr xs => xs ≠ []

/-- One stream's bookmark dictionary, insertion ordered (Python dicts keep
insertion order, which is what makes serialisation deterministic). -/
abbrev BMap := List (String × JVal)

/-- The `state['bookmarks']` map: stream id → bookmark dictionary. -/
abbrev SState := List (String × BMap)

/-- Raw dictionary lookup inside one stream's bookmarks. -/
def bmRaw : BMap → String → Option JVal
  | [], _ => none
  | (k', v) :: rest, k => if k' = k then some v else bmRaw rest k

/-- `dict[k] = v`: update in place (keeping the key's position) or append. -/
def bmWrite : BMap → String → JVal → BMap
  | [], k, v => [(k, v)]
  | (k', v') :: rest, k, v =>
      if k' = k then (k, v) :: rest else (k', v') :: bmWrite rest k v

/-- `dict.pop(k, None)`: remove the key, returning its raw value. -/
def bmPop : BMap → String → Option JVal × BMap
  | [], _ => (none, [])
  | (k', v') :: rest, k =>
      if k' = k then (some v', rest)
      else
        let p := bmPop rest k
        (p.1, (k', v') :: p.2)

/-- Lookup of one stream's bookmark dictionary in the state. -/
def stStream : SState → String → Option BMap
  | [], _ => none
  | (id', b) :: rest, id => if id' = id then some b else stStream rest id

/-- Raw value of `state['bookmarks'][id][k]` (stored nulls still visible). -/
def stRaw (st : SState) (id k : String) : Option JVal :=
  match stStream st id with
  | none => none
  | some b => bmRaw b k

/-- A stored `None` and an absent key are indistinguishable to Python's
`dict.get`. -/
def collapse : Option JVal → Option JVal
  | some .null => none
  | r => r

/-- `singer.get_bookmark(state, id, k)`: a stored `None` and an absent key
are indistinguishable, so stored nulls collapse to `none`. -/
def getBookmark (st : SState) (id k : String) : Option JVal :=
  collapse (stRaw st id k)

/-- `singer.write_bookmark(state, id, k, v)`: ensures the stream entry and
sets the key. -/
def writeBookmark : SState → String → String → JVal → SState
  | [], id, k, v => [(id, [(k, v)])]
  | (id', b) :: rest, id, k, v =>
      if id' = id then (id, bmWrite b k v) :: rest
      else (id', b) :: writeBookmark rest id k v

/-- `state.get('bookmarks', {}).get(id, {}).pop(k, None)`. -/
def popBookmark : SState → String → String → Option JVal × SState
  | [], _, _ => (none, [])
  | (id', b) :: rest, id, k =>
      if id' = id then
        let p := bmPop b k
        (p.1, (id, p.2) :: rest)
      else
        let p := popBookmark rest id k
        (p.1, (id', b) :: p.2)

/-! ### Quota governor (`Salesforce.check_rest_quota_usage`) -/

/-- Strip an expected prefix from a character list. -/
def stripPre : List Char → List Char → Option (List Char)
  | [], rest => some rest
  | _, [] => none
  | p :: ps, c :: cs => if c = p then stripPre ps cs else none

/-- Longest digit prefix and the remainder. -/
def spanDigits : List Char → List Char × List Char
  | [] => ([], [])
  | c :: cs =>
      if c.isDigit then
        let (d, r) := spanDigits cs
        (c :: d, r)
      else ([], c :: cs)

/-- Numeric value of a digit run. -/
def digitsVal (cs : List Char) : Nat :=
  cs.foldl (fun acc c => 10 * acc + (c.toNat - 48)) 0

/-- The regex match `^api-usage=(\d+)/(\d+)$` on the `Sforce-Limit-Info`
header, returning the two integer groups. -/
def parseApiUsage (h : String) : Option (Nat × Nat) :=
  match stripPre "api-usage=".data h.data with
  | none => none
  | some rest =>
      match spanDigits rest with
      | ([], _) => none
      | (d₁, '/' :: rest₂) =>
          match spanDigits rest₂ with
          | ([], _) => none
          | (d₂, []) => some (digitsVal d₁, digitsVal d₂)
          | (_, _ :: _) => none
      | (_, _) => none

/-- Python `int(x)` on a rational: truncation toward zero. -/
def pyInt (x : ℚ) : ℤ := if 0 ≤ x then ⌊x⌋ else ⌈x⌉

/-- The two terminating quota conditions (`SymonException` with code
`salesforce.SalesforceApiError`). -/
inductive QuotaTrip where
  | total
  | perRun
deriving DecidableEq, Repr

/-- `Salesforce.check_rest_quota_usage`.  `attempted` is
`self.rest_requests_attempted`; `qpt`/`qppr` are the configured
`quota_percent_total` / `quota_percent_per_run` (defaults 80 / 25);
floats are modelled as rationals.  Returns the raised condition, if any. -/
def check_rest_quota_usage (qpt qppr : ℚ) (attempted : ℕ) (header : String) :
    Option QuotaTrip :=
  match parseApiUsage header with
  | none => none
  | some (remaining, allotted) =>
      let percentUsedFromTotal : ℚ := ((remaining : ℚ) / (allotted : ℚ)) * 100
      let maxRequestsForRun : ℤ := pyInt (qppr * (allotted : ℚ) / 100)
      if percentUsedFromTotal > qpt then some .total
      else if (attempted : ℤ) > maxRequestsForRun then some .perRun
      else none

/-! ### Request accounting (`Salesforce._make_request`, post-response part) -/

/-- The tail of `Salesforce._make_request` after a successful response:
if the response carries a `Sforce-Limit-Info` header, increment
`rest_requests_attempted` and run the quota check with the incremented
counter; otherwise do neither.  Returns the new counter and the raised
quota condition, if any. -/
def make_request_post (qpt qppr : ℚ) (attempted : ℕ) (limitInfo : Option String) :
    ℕ × Option QuotaTrip :=
  match limitInfo with
  | none => (attempted, none)
  | some h => (attempted + 1, check_rest_quota_usage qpt qppr (attempted + 1) h)

/-! ### C3: the quota governor's trip condition -/

/-- C3: with a header parsing as `api-usage=remaining/allotted`, the quota
governor raises its terminating condition iff `remaining/allotted*100`
exceeds `quota_percent_total`, or else (checked second) the run's call
count exceeds `int(quota_percent_per_run*allotted/100)`; when neither
limit is exceeded nothing is raised. -/
theorem check_rest_quota_usage_spec
    (qpt qppr : ℚ) (attempted remaining allotted : ℕ) (h : String)
    (hparse : parseApiUsage h = some (remaining, allotted))
    (hpos : 0 < allotted) :
    (check_rest_quota_usage qpt qppr attempted h ≠ none ↔
       ((remaining : ℚ) / (allotted : ℚ) * 100 > qpt ∨
        (attempted : ℤ) > pyInt (qppr * (allotted : ℚ) / 100))) ∧
    ((remaining : ℚ) / (allotted : ℚ) * 100 > qpt →
       check_rest_quota_usage qpt qppr attempted h = some .total) ∧
    (¬ (remaining : ℚ) / (allotted : ℚ) * 100 > qpt →
       (attempted : ℤ) > pyInt (qppr * (allotted : ℚ) / 100) →
       check_rest_quota_usage qpt qppr attempted h = some .perRun) ∧
    (¬ (remaining : ℚ) / (allotted : ℚ) * 100 > qpt →
       ¬ (attempted : ℤ) > pyInt (qppr * (allotted : ℚ) / 100) →
       check_rest_quota_usage qpt qppr attempted h = none) := by
  have _ := hpos
  unfold check_rest_quota_usage
  rw [hparse]
  simp only []
  by_cases h₁ : (remaining : ℚ) / (allotted : ℚ) * 100 > qpt
  · simp [h₁]
  · by_cases h₂ : (attempted : ℤ) > pyInt (qppr * (allotted : ℚ) / 100)
    · simp [h₁, h₂]
    · simp [h₁, h₂]

/-- Witness for C3 at the spec's own example inputs: with the default
limits (80 total, 25 per run) and no calls yet, `api-usage=10/100` trips
nothing and `api-usage=90/100` trips the total-quota condition. -/
theorem check_rest_quota_usage_spec_witness :
    check_rest_quota_usage 80 25 0 "api-usage=90/100" = some .total ∧
    check_rest_quota_usage 80 25 0 "api-usage=10/100" = none := by
  constructor
  · exact (check_rest_quota_usage_spec 80 25 0 90 100 "api-usage=90/100"
      (by decide) (by norm_num)).2.1 (by norm_num)
  · exact (check_rest_quota_usage_spec 80 25 0 10 100 "api-usage=10/100"
      (by decide) (by norm_num)).2.2.2 (by norm_num) (by norm_num [pyInt])

/-! ### C8: call counting around the governor check -/

/-- C8 counterexample: a completed outbound call whose response has no
`Sforce-Limit-Info` header does not increment the run's call counter (and
performs no governor check), refuting "incremented ... unconditionally on
each call ... rather than only when some response feature is present". -/
theorem make_request_post_no_header_no_increment :
    make_request_post 80 25 0 none = (0, none) := rfl

/-- C8 amended: the call counter is incremented before the governor check
only for calls whose response carries the `Sforce-Limit-Info` header — the
check then sees the incremented count — while calls without the header
neither increment the counter nor run the check. -/
theorem make_request_post_increment_before_check
    (qpt qppr : ℚ) (attempted : ℕ) (limitInfo : Option String) :
    (make_request_post qpt qppr attempted limitInfo).1 =
      (if limitInfo.isSome then attempted + 1 else attempted) ∧
    (∀ h, limitInfo = some h →
      make_request_post qpt qppr attempted limitInfo =
        (attempted + 1, check_rest_quota_usage qpt qppr (attempted + 1) h)) ∧
    (limitInfo = none →
      make_request_post qpt qppr attempted limitInfo = (attempted, none)) := by
  cases limitInfo <;> simp [make_request_post]

/-- Witness for the amended C8 statement at a concrete call. -/
theorem make_request_post_increment_before_check_witness :
    (make_request_post 80 25 0 (some "api-usage=10/100")).1 = 1 := by
  simpa using
    (make_request_post_increment_before_check 80 25 0 (some "api-usage=10/100")).1

/-! ### Record post-processing (`sync.fix_record_anytype`) -/

/-- Python values flowing through the record transform: the CSV transport
delivers strings, the coercions produce ints, floats, booleans or None.
Floats are modelled as rationals. -/
inductive PyVal where
  | vstr (s : String)
  | vint (n : ℤ)
  | vfloat (q : ℚ)
  | vbool (x : Bool)
  | vnone
deriving DecidableEq, Repr

/-- `int(s)` on a string: optional sign followed by at least one digit
(the whitespace/underscore tolerance of CPython is not exercised here). -/
def pyIntParse (s : String) : Option ℤ :=
  match s.data with
  | '+' :: cs => match spanDigits cs with
                 | ([], _) => none
                 | (d, []) => some (digitsVal d : ℤ)
                 | (_, _ :: _) => none
  | '-' :: cs => match spanDigits cs with
                 | ([], _) => none
                 | (d, []) => some (-(digitsVal d : ℤ))
                 | (_, _ :: _) => none
  | cs => match spanDigits cs with
          | ([], _) => none
          | (d, []) => some (digitsVal d : ℤ)
          | (_, _ :: _) => none

/-- `float(s)` on a string: optional sign and `d+`, `d+.`, `d+.d+` or
`.d+` (the exponent/inf/nan forms of CPython are not exercised here). -/
def pyFloatParseCore (cs : List Char) : Option ℚ :=
  match spanDigits cs with
  | (d, []) => if d = [] then none else some (digitsVal d : ℚ)
  | (d, '.' :: rest) =>
      match spanDigits rest with
      | (f, []) =>
          if d = [] ∧ f = [] then none
          else some ((digitsVal d : ℚ) + (digitsVal f : ℚ) / (10 ^ f.length : ℚ))
      | (_, _ :: _) => none
  | (_, _) => none

/-- `float(s)` including the sign. -/
def pyFloatParse (s : String) : Option ℚ :=
  match s.data with
  | '+' :: cs => pyFloatParseCore cs
  | '-' :: cs => (pyFloatParseCore cs).map (fun q => -q)
  | cs => pyFloatParseCore cs

/-- `try_cast(val, int)`: `int(val)` with the original value kept when the
coercion raises. -/
def tryCastInt (v : PyVal) : PyVal :=
  match v with
  | .vstr s => match pyIntParse s with
               | some n => .vint n
               | none => v
  | .vint n => .vint n
  | .vfloat q => .vint (pyInt q)
  | .vbool x => .vint (if x then 1 else 0)
  | .vnone => v

/-- `try_cast(val, float)`: `float(val)` with the original value kept when
the coercion raises. -/
def tryCastFloat (v : PyVal) : PyVal :=
  match v with
  | .vstr s => match pyFloatParse s with
               | some q => .vfloat q
               | none => v
  | .vint n => .vfloat (n : ℚ)
  | .vfloat q => .vfloat q
  | .vbool x => .vfloat (if x then 1 else 0)
  | .vnone => v

/-- The slice of a field's JSON schema that `fix_record_anytype` reads:
the optional `type` entry (a single name or a list of names) and the
optional `format` entry. -/
structure FieldSchema where
  type? : Option JVal
  format? : Option String
deriving DecidableEq, Repr

/-- `typ == 'number' or 'number' in typ`. -/
def typIsNumber (t : JVal) : Bool :=
  match t with
  | .s x => x = "number"
  | .arr xs => xs.contains "number"
  | _ => false

/-- The per-field body of `fix_record_anytype`.  In the untyped branch the
translation keeps the source's two consecutive assignments
`val = try_cast(v, int)` and `val = try_cast(v, float)` as written: the
second is applied to the original `v`, so it overwrites the first. -/
def fix_field_anytype (fs : FieldSchema) (v : PyVal) : PyVal :=
  match fs.type? with
  | none =>
      let val := tryCastInt v
      let val := tryCastFloat v
      let val := if v = .vstr "true" ∨ v = .vstr "false"
                 then .vbool (v = .vstr "true") else val
      let val := if v = .vstr "" then .vnone else val
      val
  | some t =>
      if typIsNumber t then
        (if v ≠ .vnone ∧ v = .vstr "-" then .vstr "" else v)
      else if fs.format? = some "date-time" then
        (match v with
         | .vstr s => if s.toLower = "<null>" then .vstr "" else v
         | _ => v)
      else v

/-- `fix_record_anytype` over a whole record (field, schema, value). -/
def fix_record_anytype (schema : String → FieldSchema)
    (rec : List (String × PyVal)) : List (String × PyVal) :=
  rec.map (fun kv => (kv.1, fix_field_anytype (schema kv.1) kv.2))

/-! ### C6: the untyped-field coercion order -/

/-- C6 (code bug): on an untyped ("anyType") field the int parse is dead
code — the next line re-coerces the original value with `float`, which
succeeds on every int-parseable string and overwrites the int result — so
the integer-looking input "3" leaves the transform as the float 3.0, not
the integer 3 described by the claim and by the function's own docstring
("to an int, float, or string"). -/
theorem fix_record_anytype_int_parse_dead :
    fix_record_anytype (fun _ => ⟨none, none⟩) [("k", .vstr "3")]
      = [("k", .vfloat 3)] ∧
    fix_record_anytype (fun _ => ⟨none, none⟩) [("k", .vstr "3")]
      ≠ [("k", .vint 3)] := by
  constructor
  · rfl
  · decide

/-! ### Schema mapping (`salesforce.field_to_property_schema`) -/

def STRING_TYPES : List String :=
  ["id", "string", "picklist", "textarea", "phone", "url", "reference",
   "multipicklist", "combobox", "encryptedstring", "email", "complexvalue",
   "masterrecord", "datacategorygroupreference"]

def NUMBER_TYPES : List String := ["double"]

def NUMBER_OR_STRING_TYPES : List String := ["currency"]

def DATE_TYPES : List String := ["datetime", "date"]

def BINARY_TYPES : List String := ["base64", "byte"]

def LOOSE_TYPES : List String := ["anyType", "calculated"]

/-- Result of `field_to_property_schema` for one field, restricted to what
the claims observe: the `type` entry of the produced property schema (a
JSON string or flat list of strings), absent for loose/binary fields, and
whether the field was marked `inclusion: unsupported` in the metadata. -/
structure PropSchema where
  type? : Option JVal
  unsupported : Bool
deriving DecidableEq, Repr

/-- The elif chain of `field_to_property_schema` before the nullable
wrap: the produced `type` entry (absent for loose and binary types) and
the binary-only unsupported marker; `none` models the raised
`TapSalesforceException` for an unknown type. -/
def field_schema_base (sfType : String) (isReport : Bool) :
    Option (Option JVal × Bool) :=
  if STRING_TYPES.contains sfType then some (some (.s "string"), false)
  else if DATE_TYPES.contains sfType then some (some (.arr ["string", "null"]), false)
  else if sfType = "boolean" then some (some (.s "boolean"), false)
  else if NUMBER_OR_STRING_TYPES.contains sfType then
    some (some (.arr ["number", "string", "null"]), false)
  else if NUMBER_TYPES.contains sfType then some (some (.s "number"), false)
  else if sfType = "percent" then
    some (some (.s (if isReport then "string" else "number")), false)
  else if sfType = "address" then some (some (.s "object"), false)
  else if sfType = "int" ∨ sfType = "long" then some (some (.s "integer"), false)
  else if sfType = "time" then some (some (.s "string"), false)
  else if LOOSE_TYPES.contains sfType then some (none, false)
  else if BINARY_TYPES.contains sfType then some (none, true)
  else if sfType = "location" then
    some (some (.arr ["number", "object", "null"]), false)
  else if sfType = "json" then some (some (.s "string"), false)
  else none

/-- The closing nullable wrap of `field_to_property_schema`
(`property_schema['type'] = ["null", property_schema['type']]`); every
branch subject to the wrap produced a single string, so only the `.s`
case is live. -/
def nullWrap (t : JVal) : JVal :=
  match t with
  | .s x => .arr ["null", x]
  | t => t

/-- `field_to_property_schema(field, mdata, source_type, is_report)`,
dispatching on the already-extracted field name and Salesforce type
(`label`/`dataType` for reports, `name`/`type` for objects).  The nested
`properties` sub-schemas of address/location fields are not observed by
any claim and are omitted. -/
def field_to_property_schema (fieldName sfType : String) (isReport : Bool) :
    Option PropSchema :=
  match field_schema_base sfType isReport with
  | none => none
  | some (none, unsup) => some ⟨none, unsup⟩  -- loose/binary return early
  | some (some t, unsup) =>
      if fieldName ≠ "Id" ∧ sfType ≠ "location" ∧
          ¬ DATE_TYPES.contains sfType ∧
          ¬ NUMBER_OR_STRING_TYPES.contains sfType then
        some ⟨some (nullWrap t), unsup⟩
      else some ⟨some t, unsup⟩

/-- A property schema's `type` admits null. -/
def admitsNull (t : JVal) : Bool :=
  match t with
  | .s x => x = "null"
  | .arr xs => xs.contains "null"
  | .null => false
  | .b _ => false
  | .i _ => false

/-! ### C10: nullability of mapped field schemas -/

/-- Outside the inherently nullable mappings (`location`, the date types,
the number-or-string types) the elif chain always yields a single
non-"null" string type; inside them it yields a type that admits null. -/
theorem field_schema_base_null_dichotomy
    (sfType : String) (isReport : Bool) (t : JVal) (unsup : Bool)
    (h : field_schema_base sfType isReport = some (some t, unsup)) :
    if sfType = "location" ∨ DATE_TYPES.contains sfType ∨
        NUMBER_OR_STRING_TYPES.contains sfType
    then admitsNull t = true
    else ∃ x, t = .s x ∧ x ≠ "null" := by
  unfold field_schema_base at h
  by_cases h1 : STRING_TYPES.contains sfType
  case pos =>
    rw [if_pos h1] at h
    simp only [Option.some.injEq, Prod.mk.injEq] at h
    obtain ⟨ht, -⟩ := h
    subst ht
    simp only [STRING_TYPES, List.contains_cons, List.contains_nil,
      Bool.or_eq_true, beq_iff_eq, Bool.false_eq_true, or_false] at h1
    rcases h1 with h1 | h1 | h1 | h1 | h1 | h1 | h1 | h1 | h1 | h1 | h1 | h1 | h1 | h1 <;>
      subst h1 <;> (rw [if_neg (by decide)]; exact ⟨"string", rfl, by decide⟩)
  rw [if_neg h1] at h
  by_cases h2 : DATE_TYPES.contains sfType
  case pos =>
    rw [if_pos h2] at h
    simp only [Option.some.injEq, Prod.mk.injEq] at h
    obtain ⟨ht, -⟩ := h
    subst ht
    rw [if_pos (Or.inr (Or.inl h2))]
    decide
  rw [if_neg h2] at h
  by_cases h3 : sfType = "boolean"
  case pos =>
    rw [if_pos h3] at h
    simp only [Option.some.injEq, Prod.mk.injEq] at h
    obtain ⟨ht, -⟩ := h
    subst ht; subst h3
    rw [if_neg (by decide)]
    exact ⟨"boolean", rfl, by decide⟩
  rw [if_neg h3] at h
  by_cases h4 : NUMBER_OR_STRING_TYPES.contains sfType
  case pos =>
    rw [if_pos h4] at h
    simp only [Option.some.injEq, Prod.mk.injEq] at h
    obtain ⟨ht, -⟩ := h
    subst ht
    rw [if_pos (Or.inr (Or.inr h4))]
    decide
  rw [if_neg h4] at h
  by_cases h5 : NUMBER_TYPES.contains sfType
  case pos =>
    rw [if_pos h5] at h
    simp only [Option.some.injEq, Prod.mk.injEq] at h
    obtain ⟨ht, -⟩ := h
    subst ht
    have h5' : sfType = "double" := by
      simpa [NUMBER_TYPES] using h5
    subst h5'
    rw [if_neg (by decide)]
    exact ⟨"number", rfl, by decide⟩
  rw [if_neg h5] at h
  by_cases h6 : sfType = "percent"
  case pos =>
    rw [if_pos h6] at h
    simp only [Option.some.injEq, Prod.mk.injEq] at h
    obtain ⟨ht, -⟩ := h
    subst ht; subst h6
    rw [if_neg (by decide)]
    cases isReport
    · exact ⟨"number", rfl, by decide⟩
    · exact ⟨"string", rfl, by decide⟩
  rw [if_neg h6] at h
  by_cases h7 : sfType = "address"
  case pos =>
    rw [if_pos h7] at h
    simp only [Option.some.injEq, Prod.mk.injEq] at h
    obtain ⟨ht, -⟩ := h
    subst ht; subst h7
    rw [if_neg (by decide)]
    exact ⟨"object", rfl, by decide⟩
  rw [if_neg h7] at h
  by_cases h8 : sfType = "int" ∨ sfType = "long"
  case pos =>
    rw [if_pos h8] at h
    simp only [Option.some.injEq, Prod.mk.injEq] at h
    obtain ⟨ht, -⟩ := h
    subst ht
    rcases h8 with h8 | h8 <;> subst h8 <;> rw [if_neg (by decide)] <;>
      exact ⟨"integer", rfl, by decide⟩
  rw [if_neg h8] at h
  by_cases h9 : sfType = "time"
  case pos =>
    rw [if_pos h9] at h
    simp only [Option.some.injEq, Prod.mk.injEq] at h
    obtain ⟨ht, -⟩ := h
    subst ht; subst h9
    rw [if_neg (by decide)]
    exact ⟨"string", rfl, by decide⟩
  rw [if_neg h9] at h
  by_cases h10 : LOOSE_TYPES.contains sfType
  case pos =>
    rw [if_pos h10] at h
    exact absurd h (by simp)
  rw [if_neg h10] at h
  by_cases h11 : BINARY_TYPES.contains sfType
  case pos =>
    rw [if_pos h11] at h
    exact absurd h (by simp)
  rw [if_neg h11] at h
  by_cases h12 : sfType = "location"
  case pos =>
    rw [if_pos h12] at h
    simp only [Option.some.injEq, Prod.mk.injEq] at h
    obtain ⟨ht, -⟩ := h
    subst ht
    rw [if_pos (Or.inl h12)]
    decide
  rw [if_neg h12] at h
  by_cases h13 : sfType = "json"
  case pos =>
    rw [if_pos h13] at h
    simp only [Option.some.injEq, Prod.mk.injEq] at h
    obtain ⟨ht, -⟩ := h
    subst ht; subst h13
    rw [if_neg (by decide)]
    exact ⟨"string", rfl, by decide⟩
  rw [if_neg h13] at h
  exact absurd h (by simp)

/-- C10 counterexample: a field named `Id` whose source type is `datetime`
maps to the schema type `["string", "null"]`, which admits null — the
nullable wrap is skipped for `Id` but the date mapping is inherently
nullable, so "the 'Id' field's schema does not admit null" fails as a
universal statement about the mapper. -/
theorem field_to_property_schema_id_datetime_nullable :
    field_to_property_schema "Id" "datetime" false
      = some ⟨some (.arr ["string", "null"]), false⟩ ∧
    admitsNull (.arr ["string", "null"]) = true := by
  constructor
  · rfl
  · decide

/-- C10 amended: for every field mapped to a concrete schema, if the name
is not `Id` and the source type is not `location`, a date type, or a
number-or-string type, the schema type is the two-element list
`["null", T]`; every mapped field other than `Id` admits null; and the
`Id` field's schema does not admit null exactly when its source type is
outside those inherently-nullable mappings (as it is for the real `id`
type). -/
theorem field_to_property_schema_nullability
    (fieldName sfType : String) (isReport : Bool) (ps : PropSchema) (t : JVal)
    (hmap : field_to_property_schema fieldName sfType isReport = some ps)
    (hty : ps.type? = some t) :
    ((fieldName ≠ "Id" ∧ sfType ≠ "location" ∧
        ¬ DATE_TYPES.contains sfType ∧ ¬ NUMBER_OR_STRING_TYPES.contains sfType) →
      ∃ base, t = .arr ["null", base]) ∧
    (fieldName ≠ "Id" → admitsNull t = true) ∧
    ((fieldName = "Id" ∧ sfType ≠ "location" ∧
        ¬ DATE_TYPES.contains sfType ∧ ¬ NUMBER_OR_STRING_TYPES.contains sfType) →
      admitsNull t = false) := by
  unfold field_to_property_schema at hmap
  cases hbase : field_schema_base sfType isReport with
  | none => rw [hbase] at hmap; exact absurd hmap (by simp)
  | some p =>
    obtain ⟨ty?, unsup⟩ := p
    rw [hbase] at hmap
    cases ty? with
    | none =>
      simp only [Option.some.injEq] at hmap
      subst hmap
      exact absurd hty (by simp)
    | some t₀ =>
      dsimp only [] at hmap
      have hdi := field_schema_base_null_dichotomy sfType isReport t₀ unsup hbase
      by_cases hc : fieldName ≠ "Id" ∧ sfType ≠ "location" ∧
          ¬ DATE_TYPES.contains sfType ∧ ¬ NUMBER_OR_STRING_TYPES.contains sfType
      case pos =>
        rw [if_pos hc] at hmap
        simp only [Option.some.injEq] at hmap
        subst hmap
        simp only at hty
        rw [if_neg (by tauto)] at hdi
        obtain ⟨x, hx, hxnull⟩ := hdi
        subst hx
        simp only [nullWrap, Option.some.injEq] at hty
        subst hty
        refine ⟨fun _ => ⟨x, rfl⟩, fun _ => by simp [admitsNull], fun hid => ?_⟩
        exact absurd hid.1 (by simpa using hc.1)
      case neg =>
        rw [if_neg hc] at hmap
        simp only [Option.some.injEq] at hmap
        subst hmap
        simp only [Option.some.injEq] at hty
        subst hty
        refine ⟨fun hc' => absurd hc' hc, fun hid => ?_, fun hid => ?_⟩
        · have hsp : sfType = "location" ∨ DATE_TYPES.contains sfType = true ∨
              NUMBER_OR_STRING_TYPES.contains sfType = true := by
            by_contra hno
            push_neg at hno
            exact hc ⟨hid, hno.1, hno.2.1, hno.2.2⟩
          rwa [if_pos hsp] at hdi
        · obtain ⟨hid', hl, hd, hn⟩ := hid
          rw [if_neg (by tauto)] at hdi
          obtain ⟨x, hx, hxnull⟩ := hdi
          subst hx
          simp [admitsNull, hxnull]

/-- Witness for the amended C10 statement: a `string`-typed field named
`Name` gets the nullable two-element type. -/
theorem field_to_property_schema_nullability_witness :
    admitsNull (.arr ["null", "string"]) = true :=
  (field_to_property_schema_nullability "Name" "string" false
      ⟨some (.arr ["null", "string"]), false⟩ (.arr ["null", "string"])
      (by rfl) (by rfl)).2.1 (by decide)

/-! ### Filter compiler (`Salesforce.filter_sql` and friends) -/

/-- A filter operand: `operandType == "column"` contributes its `name`,
anything else contributes its `value`. -/
inductive FOperand where
  | column (name : String)
  | value (v : String)
deriving DecidableEq, Repr

/-- A leaf filter statement: left operand, operator name, and the
optional right operand together with its `litType` tag. -/
structure FStatement where
  lhs : FOperand
  op : String
  rhs : Option (FOperand × Option String)
deriving DecidableEq, Repr

/-- The filter tree: leaf statements (`filterType == "statement"`) and
groups carrying a boolean operator over children. -/
inductive FilterNode where
  | statement (st : FStatement)
  | group (op : String) (children : List FilterNode)

/-- `Salesforce.filter_op_sql`: the fixed operator table; `none` models
the `KeyError` on an unknown operator. -/
def filter_op_sql (op : String) : Option String :=
  if op = "less_than" then some "<"
  else if op = "less_than_equals" then some "<="
  else if op = "equals" then some "="
  else if op = "not_equals" then some "!="
  else if op = "greater_than_equals" then some ">="
  else if op = "greater_than" then some ">"
  else if op = "is_null" then some "= null"
  else if op = "is_not_null" then some "!= null"
  else if op = "starts_with" then some "LIKE"
  else if op = "ends_with" then some "LIKE"
  else if op = "contains" then some "LIKE"
  else if op = "not_contains" then some "NOT LIKE"
  else none

/-- `Salesforce.filter_operand_sql`. -/
def filter_operand_sql : FOperand → String
  | .column name => name
  | .value v => v

/-- `" <sep> ".join(parts)`. -/
def joinSep (sep : String) : List String → String
  | [] => ""
  | [x] => x
  | x :: y :: rest => x ++ sep ++ joinSep sep (y :: rest)

/-- `Salesforce.filter_statement_sql`.  `isoZ` abstracts the external
`datetime.fromisoformat(..).replace(tzinfo=utc).isoformat().replace('+00:00','Z')`
normalisation, returning `none` when `fromisoformat` raises; `srcTypes`
is the `source_col_types` map.  `none` models a raised exception. -/
def filter_statement_sql (isoZ : String → Option String)
    (srcTypes : String → Option String) (st : FStatement) : Option String :=
  let lhs_sql := filter_operand_sql st.lhs
  match filter_op_sql st.op with
  | none => none
  | some op_sql =>
      match st.rhs with
      | some (rop, lit) =>
          let rhs_sql := filter_operand_sql rop
          if lit = some "date" then
            if srcTypes lhs_sql = some "datetime" then
              match isoZ rhs_sql with
              | none => none
              | some z => some ("(" ++ lhs_sql ++ " " ++ op_sql ++ " " ++ z ++ ")")
            else some ("(" ++ lhs_sql ++ " " ++ op_sql ++ " " ++ rhs_sql ++ ")")
          else if lit = some "number" then
            if srcTypes lhs_sql = some "int" ∨ srcTypes lhs_sql = some "long" then
              match pyFloatParse rhs_sql with
              | none => none
              | some q =>
                  some ("(" ++ lhs_sql ++ " " ++ op_sql ++ " " ++ toString (pyInt q) ++ ")")
            else some ("(" ++ lhs_sql ++ " " ++ op_sql ++ " " ++ rhs_sql ++ ")")
          else if lit = some "boolean" then
            some ("(" ++ lhs_sql ++ " " ++ op_sql ++ " " ++ rhs_sql ++ ")")
          else if st.op = "starts_with" then
            some ("(" ++ lhs_sql ++ " " ++ op_sql ++ " \x27" ++ rhs_sql ++ "%\x27)")
          else if st.op = "ends_with" then
            some ("(" ++ lhs_sql ++ " " ++ op_sql ++ " \x27%" ++ rhs_sql ++ "\x27)")
          else if st.op = "contains" ∨ st.op = "not_contains" then
            some ("(" ++ lhs_sql ++ " " ++ op_sql ++ " \x27%" ++ rhs_sql ++ "%\x27)")
          else
            some ("(" ++ lhs_sql ++ " " ++ op_sql ++ " \x27" ++ rhs_sql ++ "\x27)")
      | none => some ("(" ++ lhs_sql ++ " " ++ op_sql ++ ")")

mutual

/-- `Salesforce.filter_sql`: outer `none` models a raised exception,
inner `none` the "compiles to nothing" result of an empty group. -/
def filter_sql (isoZ srcTypes : String → Option String) :
    FilterNode → Option (Option String)
  | .statement st =>
      match filter_statement_sql isoZ srcTypes st with
      | none => none
      | some s => some (some s)
  | .group op children =>
      match filter_children isoZ srcTypes children with
      | none => none
      | some survivors =>
          if survivors.length > 0 then
            some (some ("(" ++ joinSep (" " ++ op ++ " ") survivors ++ ")"))
          else some none

/-- The child loop of `Salesforce.filter_sql`: compile each child,
propagate exceptions, and keep the children that compiled to something. -/
def filter_children (isoZ srcTypes : String → Option String) :
    List FilterNode → Option (List String)
  | [] => some []
  | f :: fs =>
      match filter_sql isoZ srcTypes f with
      | none => none
      | some none => filter_children isoZ srcTypes fs
      | some (some s) =>
          match filter_children isoZ srcTypes fs with
          | none => none
          | some rest => some (s :: rest)

end

mutual

/-- Number of leaf statements in a filter tree. -/
def leafCount : FilterNode → Nat
  | .statement _ => 1
  | .group _ children => leafCountList children

def leafCountList : List FilterNode → Nat
  | [] => 0
  | f :: fs => leafCount f + leafCountList fs

end

/-- The shape of a compiled predicate: a leaf literal or an n-ary
boolean operator application (printed parenthesized, operands joined by
the operator). -/
inductive SoqlExpr where
  | leafE (s : String)
  | nodeE (op : String) (args : List SoqlExpr)

mutual

def printExpr : SoqlExpr → String
  | .leafE s => s
  | .nodeE op args => "(" ++ printArgs op args ++ ")"

def printArgs : String → List SoqlExpr → String
  | _, [] => ""
  | _, [e] => printExpr e
  | op, e :: e' :: rest => printExpr e ++ " " ++ op ++ " " ++ printArgs op (e' :: rest)

end

mutual

def exprLeaves : SoqlExpr → Nat
  | .leafE _ => 1
  | .nodeE _ args => exprLeavesList args

def exprLeavesList : List SoqlExpr → Nat
  | [] => 0
  | e :: es => exprLeaves e + exprLeavesList es

end

/-- A statement has valid literal types: a known operator, a parseable
date literal where the date normalisation applies, and a float-parseable
numeric literal against an int/long column. -/
def validStatement (isoZ srcTypes : String → Option String) (st : FStatement) : Bool :=
  (filter_op_sql st.op).isSome &&
  (match st.rhs with
   | none => true
   | some (rop, lit) =>
       let lhs_sql := filter_operand_sql st.lhs
       let rhs_sql := filter_operand_sql rop
       (if lit = some "date" ∧ srcTypes lhs_sql = some "datetime"
        then (isoZ rhs_sql).isSome else true) &&
       (if lit = some "number" ∧
           (srcTypes lhs_sql = some "int" ∨ srcTypes lhs_sql = some "long")
        then (pyFloatParse rhs_sql).isSome else true))

mutual

/-- Every statement in the tree has valid literal types. -/
def validNode (isoZ srcTypes : String → Option String) : FilterNode → Bool
  | .statement st => validStatement isoZ srcTypes st
  | .group _ children => validList isoZ srcTypes children

def validList (isoZ srcTypes : String → Option String) : List FilterNode → Bool
  | [] => true
  | f :: fs => validNode isoZ srcTypes f && validList isoZ srcTypes fs

end

/-! ### C9: totality and shape of the compiled predicate -/

/-- A statement with valid literal types always compiles to a string. -/
theorem filter_statement_sql_total (isoZ srcTypes : String → Option String)
    (st : FStatement) (hv : validStatement isoZ srcTypes st = true) :
    ∃ s, filter_statement_sql isoZ srcTypes st = some s := by
  unfold validStatement at hv
  rw [Bool.and_eq_true] at hv
  obtain ⟨hop, hrhs⟩ := hv
  obtain ⟨op_sql, hop'⟩ := Option.isSome_iff_exists.mp hop
  unfold filter_statement_sql
  rw [hop']
  cases hr : st.rhs with
  | none => exact ⟨_, rfl⟩
  | some p =>
      obtain ⟨rop, lit⟩ := p
      rw [hr] at hrhs
      dsimp only [] at hrhs ⊢
      rw [Bool.and_eq_true] at hrhs
      obtain ⟨hdate, hnum⟩ := hrhs
      by_cases hld : lit = some "date"
      case pos =>
        rw [if_pos hld]
        by_cases hdt : srcTypes (filter_operand_sql st.lhs) = some "datetime"
        case pos =>
          rw [if_pos hdt]
          rw [if_pos ⟨hld, hdt⟩] at hdate
          obtain ⟨z, hz⟩ := Option.isSome_iff_exists.mp hdate
          rw [hz]
          exact ⟨_, rfl⟩
        rw [if_neg hdt]
        exact ⟨_, rfl⟩
      rw [if_neg hld]
      by_cases hln : lit = some "number"
      case pos =>
        rw [if_pos hln]
        by_cases hil : srcTypes (filter_operand_sql st.lhs) = some "int" ∨
            srcTypes (filter_operand_sql st.lhs) = some "long"
        case pos =>
          rw [if_pos hil]
          rw [if_pos ⟨hln, hil⟩] at hnum
          obtain ⟨q, hq⟩ := Option.isSome_iff_exists.mp hnum
          rw [hq]
          exact ⟨_, rfl⟩
        rw [if_neg hil]
        exact ⟨_, rfl⟩
      rw [if_neg hln]
      by_cases hlb : lit = some "boolean"
      case pos => rw [if_pos hlb]; exact ⟨_, rfl⟩
      rw [if_neg hlb]
      by_cases ho1 : st.op = "starts_with"
      case pos => rw [if_pos ho1]; exact ⟨_, rfl⟩
      rw [if_neg ho1]
      by_cases ho2 : st.op = "ends_with"
      case pos => rw [if_pos ho2]; exact ⟨_, rfl⟩
      rw [if_neg ho2]
      by_cases ho3 : st.op = "contains" ∨ st.op = "not_contains"
      case pos => rw [if_pos ho3]; exact ⟨_, rfl⟩
      rw [if_neg ho3]
      exact ⟨_, rfl⟩

/-- Printing an n-ary operator node joins the printed operands with the
spaced operator, exactly like the group compiler's `join`. -/
theorem printArgs_eq_joinSep (op : String) (es : List SoqlExpr) :
    printArgs op es = joinSep (" " ++ op ++ " ") (es.map printExpr) := by
  induction es with
  | nil => rfl
  | cons e es ih =>
      cases es with
      | nil => rfl
      | cons e' rest =>
          show printExpr e ++ " " ++ op ++ " " ++ printArgs op (e' :: rest) = _
          rw [ih]
          show _ = printExpr e ++ (" " ++ op ++ " ") ++
            joinSep (" " ++ op ++ " ") (printExpr e' :: rest.map printExpr)
          rw [String.append_assoc (printExpr e) " " op,
            String.append_assoc (printExpr e) (" " ++ op) " "]
          simp

mutual

/-- Joint induction, node case: a valid tree compiles without raising,
to nothing exactly when it has no leaf statements, and otherwise to the
printed form of an operator tree with as many leaves as the filter tree
has statements. -/
theorem filter_sql_spec_aux (isoZ srcTypes : String → Option String) :
    ∀ (t : FilterNode), validNode isoZ srcTypes t = true →
    ∃ r, filter_sql isoZ srcTypes t = some r ∧
      ((r = none ∧ leafCount t = 0) ∨
       (∃ e : SoqlExpr, r = some (printExpr e) ∧ exprLeaves e = leafCount t ∧
         1 ≤ exprLeaves e))
  | .statement st, hv => by
      obtain ⟨s, hs⟩ := filter_statement_sql_total isoZ srcTypes st
        (by simpa [validNode] using hv)
      refine ⟨some s, ?_, Or.inr ⟨.leafE s, rfl, rfl, le_refl 1⟩⟩
      unfold filter_sql
      rw [hs]
  | .group op children, hv => by
      obtain ⟨survivors, es, hfc, hmap, hcount, hpos⟩ :=
        filter_children_spec_aux isoZ srcTypes children (by simpa [validNode] using hv)
      cases hs : survivors with
      | nil =>
          subst hs
          refine ⟨none, ?_, Or.inl ⟨rfl, ?_⟩⟩
          · unfold filter_sql
            rw [hfc]
            rfl
          · have hes : es = [] := by
              cases es with
              | nil => rfl
              | cons e es' => exact absurd hmap (by simp)
            subst hes
            simpa [leafCount] using hcount.symm
      | cons s₀ rest =>
          subst hs
          refine ⟨some ("(" ++ joinSep (" " ++ op ++ " ") (s₀ :: rest) ++ ")"), ?_,
            Or.inr ⟨.nodeE op es, ?_, ?_, ?_⟩⟩
          · unfold filter_sql
            rw [hfc]
            simp
          · rw [show printExpr (.nodeE op es) = "(" ++ printArgs op es ++ ")" from rfl,
              printArgs_eq_joinSep, hmap]
          · simpa [exprLeaves, leafCount] using hcount
          · show 1 ≤ exprLeaves (.nodeE op es)
            cases es with
            | nil => exact absurd hmap (by simp)
            | cons e es' =>
                have h1 := hpos e (by simp)
                show 1 ≤ exprLeavesList (e :: es')
                unfold exprLeavesList
                omega

/-- Joint induction, child-list case: the surviving children of a valid
list are exactly the printed forms of expression trees whose leaves sum
to the list's leaf-statement count and are each nonempty. -/
theorem filter_children_spec_aux (isoZ srcTypes : String → Option String) :
    ∀ (cs : List FilterNode), validList isoZ srcTypes cs = true →
    ∃ survivors es, filter_children isoZ srcTypes cs = some survivors ∧
      es.map printExpr = survivors ∧ exprLeavesList es = leafCountList cs ∧
      (∀ e ∈ es, 1 ≤ exprLeaves e)
  | [], _ => ⟨[], [], rfl, rfl, rfl, by simp⟩
  | f :: fs, hv => by
      have hvf : validNode isoZ srcTypes f = true := by
        have := hv
        unfold validList at this
        exact (Bool.and_eq_true _ _ |>.mp this).1
      have hvfs : validList isoZ srcTypes fs = true := by
        have := hv
        unfold validList at this
        exact (Bool.and_eq_true _ _ |>.mp this).2
      obtain ⟨r, hr, hcase⟩ := filter_sql_spec_aux isoZ srcTypes f hvf
      obtain ⟨survivors, es, hfc, hmap, hcount, hpos⟩ :=
        filter_children_spec_aux isoZ srcTypes fs hvfs
      cases hcase with
      | inl h0 =>
          obtain ⟨hrn, hlc⟩ := h0
          subst hrn
          refine ⟨survivors, es, ?_, hmap, ?_, hpos⟩
          · unfold filter_children
            rw [hr]
            exact hfc
          · unfold leafCountList
            omega
      | inr hex =>
          obtain ⟨e, hre, hel, he1⟩ := hex
          subst hre
          refine ⟨printExpr e :: survivors, e :: es, ?_, ?_, ?_, ?_⟩
          · unfold filter_children
            rw [hr]
            dsimp only []
            rw [hfc]
          · simp [hmap]
          · unfold exprLeavesList leafCountList
            omega
          · intro e' he'
            rcases List.mem_cons.mp he' with h | h
            · subst h; exact he1
            · exact hpos e' h

end

/-- For a valid child list the loop collects exactly those children whose
compilation produced something, in order. -/
theorem filter_children_eq_filterMap (isoZ srcTypes : String → Option String)
    (cs : List FilterNode) (hv : validList isoZ srcTypes cs = true) :
    filter_children isoZ srcTypes cs =
      some (cs.filterMap (fun c => (filter_sql isoZ srcTypes c).join)) := by
  induction cs with
  | nil => rfl
  | cons f fs ih =>
      have hsplit := Bool.and_eq_true _ _ |>.mp (by
        have := hv
        unfold validList at this
        exact this)
      obtain ⟨r, hr, -⟩ := filter_sql_spec_aux isoZ srcTypes f hsplit.1
      unfold filter_children
      rw [hr]
      cases r with
      | none =>
          dsimp only []
          rw [ih hsplit.2]
          simp [List.filterMap_cons, hr, Option.join]
      | some s =>
          dsimp only []
          rw [ih hsplit.2]
          simp [List.filterMap_cons, hr, Option.join]

/-- C9: a group compiles each child, drops the children that compile to
nothing, and wraps the survivors joined by the group operator in
parentheses, compiling to nothing when no child survives; and every
valid filter tree compiles without raising, to nothing exactly when it
has no leaf statements, and otherwise to the printed form of a total
AND/OR operator tree whose leaf operand count equals the tree's leaf
statement count. -/
theorem filter_sql_group_and_count (isoZ srcTypes : String → Option String) :
    (∀ op children, validList isoZ srcTypes children = true →
      filter_sql isoZ srcTypes (.group op children) =
        some (match children.filterMap
                (fun c => (filter_sql isoZ srcTypes c).join) with
              | [] => none
              | survivors =>
                  some ("(" ++ joinSep (" " ++ op ++ " ") survivors ++ ")"))) ∧
    (∀ t, validNode isoZ srcTypes t = true →
      ∃ r, filter_sql isoZ srcTypes t = some r ∧
        (r = none ↔ leafCount t = 0) ∧
        (∀ s, r = some s →
          ∃ e : SoqlExpr, printExpr e = s ∧ exprLeaves e = leafCount t)) := by
  constructor
  · intro op children hv
    have hfc := filter_children_eq_filterMap isoZ srcTypes children hv
    cases hL : children.filterMap (fun c => (filter_sql isoZ srcTypes c).join) with
    | nil =>
        rw [hL] at hfc
        unfold filter_sql
        rw [hfc]
        rfl
    | cons s rest =>
        rw [hL] at hfc
        unfold filter_sql
        rw [hfc]
        simp
  · intro t hv
    obtain ⟨r, hr, hcase⟩ := filter_sql_spec_aux isoZ srcTypes t hv
    refine ⟨r, hr, ?_, ?_⟩
    · cases hcase with
      | inl h0 => simp [h0.1, h0.2]
      | inr hex =>
          obtain ⟨e, hre, hel, he1⟩ := hex
          subst hre
          simp only [reduceCtorEq, false_iff]
          omega
    · intro s hs
      cases hcase with
      | inl h0 => rw [h0.1] at hs; exact absurd hs (by simp)
      | inr hex =>
          obtain ⟨e, hre, hel, he1⟩ := hex
          rw [hre] at hs
          obtain rfl : printExpr e = s := by simpa using hs
          exact ⟨e, rfl, hel⟩

/-- Witness for C9 at a two-statement AND group: it compiles (via the
theorem) and the survivors are the two compiled statements. -/
theorem filter_sql_group_and_count_witness :
    ∃ r, filter_sql (fun s => some s) (fun _ => none)
        (.group "AND"
          [.statement ⟨.column "a", "equals", some (.value "b", none)⟩,
           .statement ⟨.column "c", "is_null", none⟩]) = some r ∧
      (r = none ↔ leafCount
        (.group "AND"
          [.statement ⟨.column "a", "equals", some (.value "b", none)⟩,
           .statement ⟨.column "c", "is_null", none⟩]) = 0) ∧
      (∀ s, r = some s →
        ∃ e : SoqlExpr, printExpr e = s ∧ exprLeaves e = leafCount
          (.group "AND"
            [.statement ⟨.column "a", "equals", some (.value "b", none)⟩,
             .statement ⟨.column "c", "is_null", none⟩])) :=
  (filter_sql_group_and_count (fun s => some s) (fun _ => none)).2
    (.group "AND"
      [.statement ⟨.column "a", "equals", some (.value "b", none)⟩,
       .statement ⟨.column "c", "is_null", none⟩]) (by decide)

/-! ### Stream sync (`sync.py`) and orchestration (`do_sync`)

Records are abstracted post-pipeline: `payload` stands for the record as
emitted after the singer transformer and `fix_record_anytype`, and
`rkRaw` is the record's replication-key field value, parsed by the
abstract `strptime_with_tz` parameter `strp` (its inverse direction
`singer_utils.strftime` is the parameter `strf`).  Wall-clock reads
(`singer_utils.now()`, `int(time.time()*1000)`) are drawn from an
abstract `clock` stream indexed by a counter. -/

/-- A drained record: opaque emitted payload plus the raw
replication-key field value. -/
structure SRecord where
  payload : String
  rkRaw : String
deriving DecidableEq, Repr

/-- The singer messages this tap emits while syncing one stream. -/
inductive OutMsg where
  | schemaMsg (stream : String)
  | record (stream payload : String) (version : Int)
  | stateMsg (st : SState)
  | activate (stream : String) (version : Int)
deriving DecidableEq, Repr

/-- The remote bulk API surface used while resuming (`bulk.job_exists`
and `bulk.get_batch_results`, which live outside this module). -/
structure ResumeEnv where
  jobExists : Bool
  batchResults : String → List SRecord

/-- Python `a or b` on bookmark values. -/
def pyOr (a b : JVal) : JVal := if a.truthy then a else b

/-- `strptime_with_tz` applied to a bookmark value (always a string in a
well-formed state; other shapes would raise in Python). -/
def strpJ (strp : String → Int) : JVal → Int
  | .s x => strp x
  | _ => 0

/-- A stored stream version (always an int in a well-formed state). -/
def jvalInt : JVal → Int
  | .i n => n
  | _ => 0

/-- `Salesforce.get_start_date`: the replication-key bookmark if truthy,
else the configured start date (`get_bookmark` with a `None` replication
key finds nothing). -/
def get_start_date (state : SState) (id : String) (repKey : Option String)
    (defaultStart : String) : JVal :=
  match repKey with
  | none => .s defaultStart
  | some rk =>
      match getBookmark state id rk with
      | some v => pyOr v (.s defaultStart)
      | none => .s defaultStart

/-- The bookmark update on one record inside the resume loop
(`replication_key_value and replication_key_value <= start_time and
replication_key_value > current_bookmark`). -/
def bookmarkStep (strp : String → Int) (startTime : Int) (repKey : Option String)
    (cb : Int) (r : SRecord) : Int :=
  match repKey with
  | none => cb
  | some _ =>
      let v := strp r.rkRaw
      if v ≤ startTime ∧ v > cb then v else cb

/-- `batch_ids.remove(batch_id)` on the list aliased inside the state:
drop the first occurrence from the stored `BatchIDs`. -/
def removeBatchId (st : SState) (id b : String) : SState :=
  match stRaw st id "BatchIDs" with
  | some (.arr xs) => writeBookmark st id "BatchIDs" (.arr (xs.erase b))
  | _ => st

/-- The `for batch_id in batch_ids[:]` loop of
`resume_syncing_bulk_query`: per batch, emit its records, fold the
highest-bookmark update, write `JobHighestBookmarkSeen`, remove the
batch id from the persisted list, and flush state. -/
def drainBatches (env : ResumeEnv) (strp : String → Int) (strf : Int → String)
    (streamId : String) (repKey : Option String) (version startTime : Int) :
    List String → Int → SState → List OutMsg × SState
  | [], _, st => ([], st)
  | b :: rest, cb, st =>
      let recs := env.batchResults b
      let recMsgs := recs.map (fun r => OutMsg.record streamId r.payload version)
      let cb' := recs.foldl (bookmarkStep strp startTime repKey) cb
      let st₁ := writeBookmark st streamId "JobHighestBookmarkSeen" (.s (strf cb'))
      let st₂ := removeBatchId st₁ streamId b
      let out := drainBatches env strp strf streamId repKey version startTime rest cb' st₂
      (recMsgs ++ OutMsg.stateMsg st₂ :: out.1, out.2)

/-- `sync.resume_syncing_bulk_query`.  `startTime` and `version` stand
for the `singer_utils.now()` and `get_stream_version` values computed on
entry.  When the stored job no longer exists the function returns with
nothing drained; otherwise it iterates the persisted `BatchIDs` list.
`none` models the `TypeError` Python would raise if `BatchIDs` were not
a list. -/
def resume_syncing_bulk_query (env : ResumeEnv) (strp : String → Int)
    (strf : Int → String) (streamId : String) (repKey : Option String)
    (defaultStart : String) (startTime version : Int) (state : SState) :
    Option (List OutMsg × SState) :=
  let currentBookmark := strpJ strp
    (pyOr ((stRaw state streamId "JobHighestBookmarkSeen").getD .null)
          (get_start_date state streamId repKey defaultStart))
  if env.jobExists = false then some ([], state)
  else
    match stRaw state streamId "BatchIDs" with
    | some (.arr bids) =>
        some (drainBatches env strp strf streamId repKey version startTime
          bids currentBookmark state)
    | _ => none

/-- `sync.get_stream_version`, with its wall-clock reads drawn from
`clock` at the running index. -/
def get_stream_version (repKey : Option String) (id : String) (state : SState)
    (clock : Nat → Int) (i : Nat) : Int × Nat :=
  let sv :=
    match getBookmark state id "version" with
    | none => (clock i, i + 1)
    | some v => (jvalInt v, i)
  match repKey with
  | some _ => sv
  | none => (clock sv.2, sv.2 + 1)

/-- `sync.sync_records` (the object-source record loop): emits each
record, advances the bookmark per the pk-chunking mode, and closes with
the full-table activate-version / final pk-chunked bookmark writes.
Returns the messages, the final state and the next clock index. -/
def sync_records (strp : String → Int) (strf : Int → String) (id : String)
    (repKey : Option String) (pkChunking : Bool) (defaultStart : String)
    (clock : Nat → Int) (i₀ : Nat) (startTime : Int)
    (recs : List SRecord) (state₀ : SState) : List OutMsg × SState × Nat :=
  let chunked₀ := strpJ strp (get_start_date state₀ id repKey defaultStart)
  let v₀ := get_stream_version repKey id state₀ clock i₀
  let sv := v₀.1
  let step := fun (acc : List OutMsg × SState × Int) (r : SRecord) =>
    let ms := acc.1
    let st := acc.2.1
    let cb := acc.2.2
    let recM := OutMsg.record id r.payload sv
    match repKey with
    | some rk =>
        let v := strp r.rkRaw
        if pkChunking then
          if v ≤ startTime ∧ v > cb then
            let st' := writeBookmark st id "JobHighestBookmarkSeen" (.s (strf v))
            (ms ++ [recM, OutMsg.stateMsg st'], st', v)
          else (ms ++ [recM], st, cb)
        else
          if v ≤ startTime then
            let st' := writeBookmark st id rk (.s r.rkRaw)
            (ms ++ [recM, OutMsg.stateMsg st'], st', cb)
          else (ms ++ [recM], st, cb)
    | none => (ms ++ [recM], st, cb)
  let out := recs.foldl step ([], state₀, chunked₀)
  let ms₁ := out.1
  let st₁ := out.2.1
  let cbF := out.2.2
  let fin :=
    match repKey with
    | none => (ms₁ ++ [OutMsg.activate id sv], writeBookmark st₁ id "version" .null)
    | some _ => (ms₁, st₁)
  if pkChunking then
    -- with a missing replication key Python would write under the None
    -- key; modelled as the distinguished key "None"
    (fin.1, writeBookmark fin.2 id (repKey.getD "None") (.s (strf cbF)), v₀.2)
  else (fin.1, fin.2, v₀.2)

/-- `do_sync`, fresh-extraction branch for one selected stream: flush the
`current_stream` marker, emit the schema, emit the opening
activate-version when the stream is keyed or has no bookmark yet, then
run `sync_records` through `sync_stream` (which flushes state once
more). -/
def do_sync_stream_fresh (strp : String → Int) (strf : Int → String) (id : String)
    (repKey : Option String) (pkChunking : Bool) (defaultStart : String)
    (clock : Nat → Int) (i₀ : Nat) (startTime : Int)
    (recs : List SRecord) (state : SState) : List OutMsg × SState × Nat :=
  let v₀ := get_stream_version repKey id state clock i₀
  let sv := v₀.1
  let m₀ := [OutMsg.stateMsg state, OutMsg.schemaMsg id]
  let bookmarkEmpty := (stStream state id).isNone
  let pre :=
    if repKey.isSome || bookmarkEmpty then
      (m₀ ++ [OutMsg.activate id sv], writeBookmark state id "version" (.i sv))
    else (m₀, state)
  let out := sync_records strp strf id repKey pkChunking defaultStart clock v₀.2
    startTime recs pre.2
  (pre.1 ++ out.1 ++ [OutMsg.stateMsg out.2.1], out.2.1, out.2.2)

/-- The reconciliation `do_sync` performs after a resumed job: pop the
job triple, then overwrite the replication-key bookmark with the popped
`JobHighestBookmarkSeen` if truthy, else the popped prior bookmark. -/
def reconcile_resumed_job (id repKey : String) (state : SState) : SState :=
  let p₁ := popBookmark state id "JobID"
  let p₂ := popBookmark p₁.2 id "BatchIDs"
  let p₃ := popBookmark p₂.2 id "JobHighestBookmarkSeen"
  let p₄ := popBookmark p₃.2 id repKey
  writeBookmark p₄.2 id repKey (pyOr (p₃.1.getD .null) (p₄.1.getD .null))

/-- `do_sync`, resume branch for one selected stream (restricted to
streams that carry a replication key, as every resumable bulk stream
does): flush the `current_stream` marker, emit the schema, run the
resume, then reconcile and flush. -/
def do_sync_stream_resume (env : ResumeEnv) (strp : String → Int)
    (strf : Int → String) (id repKey : String) (defaultStart : String)
    (startTime version : Int) (state : SState) : Option (List OutMsg × SState) :=
  match resume_syncing_bulk_query env strp strf id (some repKey) defaultStart
      startTime version state with
  | none => none
  | some (ms, st₁) =>
      let st₂ := reconcile_resumed_job id repKey st₁
      some (OutMsg.stateMsg state :: OutMsg.schemaMsg id :: ms ++
        [OutMsg.stateMsg st₂], st₂)

/-- The `if job_id and batch_ids:` dispatch of `do_sync`: a stream is
resumed exactly when both persisted values are truthy. -/
def job_resumable (state : SState) (id : String) : Bool :=
  JVal.truthy ((getBookmark state id "JobID").getD .null) &&
  JVal.truthy ((getBookmark state id "BatchIDs").getD .null)

/-! ### Dictionary lemmas -/

theorem bmRaw_bmWrite_same (k : String) (v : JVal) :
    ∀ b : BMap, bmRaw (bmWrite b k v) k = some v := by
  intro b
  induction b with
  | nil => rw [bmWrite, bmRaw, if_pos rfl]
  | cons kv rest ih =>
      obtain ⟨k₀, v₀⟩ := kv
      by_cases hk : k₀ = k
      · rw [bmWrite, if_pos hk]
        simp [bmRaw]
      · rw [bmWrite, if_neg hk, bmRaw, if_neg hk]
        exact ih

theorem bmRaw_bmWrite_ne (k k' : String) (v : JVal) (hne : k' ≠ k) :
    ∀ b : BMap, bmRaw (bmWrite b k v) k' = bmRaw b k' := by
  intro b
  induction b with
  | nil =>
      show bmRaw [(k, v)] k' = none
      rw [bmRaw, if_neg (Ne.symm hne), bmRaw]
  | cons kv rest ih =>
      obtain ⟨k₀, v₀⟩ := kv
      by_cases hk : k₀ = k
      · rw [bmWrite, if_pos hk, bmRaw, if_neg (Ne.symm hne), bmRaw,
          if_neg (by rw [hk]; exact Ne.symm hne)]
      · rw [bmWrite, if_neg hk, bmRaw, bmRaw]
        by_cases hk' : k₀ = k'
        · rw [if_pos hk', if_pos hk']
        · rw [if_neg hk', if_neg hk']
          exact ih

theorem stRaw_writeBookmark_same (id k : String) (v : JVal) :
    ∀ st : SState, stRaw (writeBookmark st id k v) id k = some v := by
  intro st
  induction st with
  | nil =>
      rw [writeBookmark]
      unfold stRaw
      rw [stStream, if_pos rfl]
      dsimp only []
      rw [bmRaw, if_pos rfl]
  | cons p rest ih =>
      obtain ⟨id₀, b₀⟩ := p
      by_cases hid : id₀ = id
      · rw [writeBookmark, if_pos hid]
        unfold stRaw
        rw [stStream, if_pos rfl]
        exact bmRaw_bmWrite_same k v b₀
      · rw [writeBookmark, if_neg hid]
        unfold stRaw
        rw [stStream, if_neg hid]
        exact ih

theorem stRaw_writeBookmark_ne_key (id k k' : String) (v : JVal) (hne : k' ≠ k) :
    ∀ st : SState, stRaw (writeBookmark st id k v) id k' = stRaw st id k' := by
  intro st
  induction st with
  | nil =>
      show stRaw (writeBookmark [] id k v) id k' = none
      rw [writeBookmark]
      unfold stRaw
      rw [stStream, if_pos rfl]
      dsimp only []
      rw [bmRaw, if_neg (Ne.symm hne), bmRaw]
  | cons p rest ih =>
      obtain ⟨id₀, b₀⟩ := p
      by_cases hid : id₀ = id
      · rw [writeBookmark, if_pos hid]
        unfold stRaw
        rw [stStream, if_pos rfl]
        subst hid
        rw [stStream, if_pos rfl]
        exact bmRaw_bmWrite_ne k k' v hne b₀
      · rw [writeBookmark, if_neg hid]
        unfold stRaw
        rw [stStream, if_neg hid, stStream, if_neg hid]
        exact ih

theorem stRaw_writeBookmark_ne_id (id id' k k' : String) (v : JVal)
    (hne : id' ≠ id) :
    ∀ st : SState, stRaw (writeBookmark st id k v) id' k' = stRaw st id' k' := by
  intro st
  induction st with
  | nil =>
      show stRaw (writeBookmark [] id k v) id' k' = none
      rw [writeBookmark]
      unfold stRaw
      rw [stStream, if_neg (Ne.symm hne), stStream]
  | cons p rest ih =>
      obtain ⟨id₀, b₀⟩ := p
      by_cases hid : id₀ = id
      · rw [writeBookmark, if_pos hid]
        unfold stRaw
        rw [stStream, if_neg (Ne.symm hne), stStream,
          if_neg (by rw [hid]; exact Ne.symm hne)]
      · rw [writeBookmark, if_neg hid]
        unfold stRaw
        rw [stStream, stStream]
        by_cases hid' : id₀ = id'
        · rw [if_pos hid', if_pos hid']
        · rw [if_neg hid', if_neg hid']
          exact ih

/-! ### C1: resuming drains exactly the persisted batch list -/

/-- The emitted record payloads, in order. -/
def recordPayloads (ms : List OutMsg) : List String :=
  ms.filterMap fun m => match m with | .record _ p _ => some p | _ => none

/-- The state snapshots flushed by `singer.write_state`, in order. -/
def flushedStates (ms : List OutMsg) : List SState :=
  ms.filterMap fun m => match m with | .stateMsg st => some st | _ => none

theorem recordPayloads_append (l₁ l₂ : List OutMsg) :
    recordPayloads (l₁ ++ l₂) = recordPayloads l₁ ++ recordPayloads l₂ := by
  simp [recordPayloads]

theorem flushedStates_append (l₁ l₂ : List OutMsg) :
    flushedStates (l₁ ++ l₂) = flushedStates l₁ ++ flushedStates l₂ := by
  simp [flushedStates]

theorem recordPayloads_cons_state (st : SState) (t : List OutMsg) :
    recordPayloads (OutMsg.stateMsg st :: t) = recordPayloads t := rfl

theorem flushedStates_cons_state (st : SState) (t : List OutMsg) :
    flushedStates (OutMsg.stateMsg st :: t) = st :: flushedStates t := rfl

theorem recordPayloads_recmap (streamId : String) (version : Int)
    (l : List SRecord) :
    recordPayloads (l.map (fun r => OutMsg.record streamId r.payload version)) =
      l.map SRecord.payload := by
  induction l with
  | nil => rfl
  | cons r t iht =>
      simp only [List.map_cons]
      show r.payload :: recordPayloads
        (t.map (fun r => OutMsg.record streamId r.payload version)) = _
      rw [iht]

theorem flushedStates_recmap (streamId : String) (version : Int)
    (l : List SRecord) :
    flushedStates (l.map (fun r => OutMsg.record streamId r.payload version)) = [] := by
  induction l with
  | nil => rfl
  | cons r t iht =>
      simp only [List.map_cons]
      show flushedStates (t.map (fun r => OutMsg.record streamId r.payload version)) = _
      exact iht

theorem drainBatches_cons (env : ResumeEnv) (strp : String → Int)
    (strf : Int → String) (streamId : String) (repKey : Option String)
    (version startTime : Int) (b : String) (rest : List String) (cb : Int)
    (st : SState) :
    drainBatches env strp strf streamId repKey version startTime (b :: rest) cb st =
      ((env.batchResults b).map (fun r => OutMsg.record streamId r.payload version) ++
        OutMsg.stateMsg (removeBatchId (writeBookmark st streamId
          "JobHighestBookmarkSeen" (.s (strf ((env.batchResults b).foldl
            (bookmarkStep strp startTime repKey) cb)))) streamId b) ::
        (drainBatches env strp strf streamId repKey version startTime rest
          ((env.batchResults b).foldl (bookmarkStep strp startTime repKey) cb)
          (removeBatchId (writeBookmark st streamId "JobHighestBookmarkSeen"
            (.s (strf ((env.batchResults b).foldl
              (bookmarkStep strp startTime repKey) cb)))) streamId b)).1,
       (drainBatches env strp strf streamId repKey version startTime rest
          ((env.batchResults b).foldl (bookmarkStep strp startTime repKey) cb)
          (removeBatchId (writeBookmark st streamId "JobHighestBookmarkSeen"
            (.s (strf ((env.batchResults b).foldl
              (bookmarkStep strp startTime repKey) cb)))) streamId b)).2) := rfl

/-- What resuming promises for an in-flight job: the records drained are
exactly those of the persisted batch id list in order, each batch's
drain is followed by a state flush whose persisted list has lost exactly
the batches drained so far, and the final state's list is empty. -/
def ResumeDrainSpec (env : ResumeEnv) (strp : String → Int) (strf : Int → String)
    (streamId : String) (repKey : Option String) (defaultStart : String)
    (startTime version : Int) (state : SState) (bids : List String) : Prop :=
  ∃ ms fin, resume_syncing_bulk_query env strp strf streamId repKey defaultStart
      startTime version state = some (ms, fin) ∧
    recordPayloads ms =
      (bids.map (fun b => (env.batchResults b).map SRecord.payload)).flatten ∧
    (flushedStates ms).map (fun st => stRaw st streamId "BatchIDs") =
      (List.range bids.length).map (fun i => some (.arr (bids.drop (i + 1)))) ∧
    stRaw fin streamId "BatchIDs" = some (.arr [])

/-- The per-batch loop invariant behind C1. -/
theorem drainBatches_spec (env : ResumeEnv) (strp : String → Int)
    (strf : Int → String) (streamId : String) (repKey : Option String)
    (version startTime : Int) :
    ∀ (bids : List String) (cb : Int) (st : SState),
      stRaw st streamId "BatchIDs" = some (.arr bids) →
      recordPayloads (drainBatches env strp strf streamId repKey version startTime
          bids cb st).1 =
        (bids.map (fun b => (env.batchResults b).map SRecord.payload)).flatten ∧
      (flushedStates (drainBatches env strp strf streamId repKey version startTime
          bids cb st).1).map (fun s => stRaw s streamId "BatchIDs") =
        (List.range bids.length).map (fun i => some (.arr (bids.drop (i + 1)))) ∧
      stRaw (drainBatches env strp strf streamId repKey version startTime
          bids cb st).2 streamId "BatchIDs" = some (.arr []) := by
  intro bids
  induction bids with
  | nil =>
      intro cb st hb
      refine ⟨rfl, rfl, ?_⟩
      simpa [drainBatches] using hb
  | cons b rest ih =>
      intro cb st hb
      have h₁ : stRaw (writeBookmark st streamId "JobHighestBookmarkSeen"
          (.s (strf (((env.batchResults b).foldl
            (bookmarkStep strp startTime repKey) cb))))) streamId "BatchIDs"
          = some (.arr (b :: rest)) := by
        rw [stRaw_writeBookmark_ne_key _ _ _ _ (by decide)]
        exact hb
      have herase : (b :: rest).erase b = rest := by
        simp [List.erase_cons_head]
      have h₂ : stRaw (removeBatchId (writeBookmark st streamId
          "JobHighestBookmarkSeen" (.s (strf (((env.batchResults b).foldl
            (bookmarkStep strp startTime repKey) cb))))) streamId b)
          streamId "BatchIDs" = some (.arr rest) := by
        unfold removeBatchId
        rw [h₁]
        rw [stRaw_writeBookmark_same, herase]
      obtain ⟨ihrec, ihflush, ihfin⟩ := ih
        ((env.batchResults b).foldl (bookmarkStep strp startTime repKey) cb) _ h₂
      refine ⟨?_, ?_, ?_⟩
      · rw [drainBatches_cons, recordPayloads_append, recordPayloads_recmap,
          recordPayloads_cons_state, ihrec]
        simp
      · rw [drainBatches_cons, flushedStates_append, flushedStates_recmap,
          flushedStates_cons_state]
        show _ :: List.map _ _ = _
        rw [ihflush, List.length_cons, List.range_succ_eq_map]
        simp only [List.map_cons, List.map_map, List.nil_append]
        refine congrArg₂ (fun x y => x :: y) ?_ ?_
        · rw [h₂]
          rfl
        · simp [Function.comp]
      · rw [drainBatches_cons]
        exact ihfin

/-- C1: resuming a persisted in-flight job iterates exactly the persisted
`BatchIDs` list, emits precisely those batches' records in order, and
after each batch removes its id from the persisted list and flushes the
state, ending with an empty persisted list; in particular a job whose
remaining persisted list is `[B2]` (B1 already drained before a crash)
drains only `[B2]`. -/
theorem resume_drains_persisted_batches (env : ResumeEnv) (strp : String → Int)
    (strf : Int → String) (streamId : String) (repKey : Option String)
    (defaultStart : String) (startTime version : Int) (state : SState)
    (bids : List String)
    (hjob : env.jobExists = true)
    (hb : stRaw state streamId "BatchIDs" = some (.arr bids)) :
    ResumeDrainSpec env strp strf streamId repKey defaultStart startTime version
      state bids := by
  obtain ⟨hrec, hflush, hfin⟩ := drainBatches_spec env strp strf streamId repKey
    version startTime bids
    (strpJ strp (pyOr ((stRaw state streamId "JobHighestBookmarkSeen").getD .null)
      (get_start_date state streamId repKey defaultStart))) state hb
  refine ⟨_, _, ?_, hrec, hflush, hfin⟩
  unfold resume_syncing_bulk_query
  rw [if_neg (by simp [hjob]), hb]

/-- Witness for C1 at the claim's own scenario: persisted list `[B2]`
after B1 was drained and removed before a crash. -/
theorem resume_drains_persisted_batches_witness :
    ResumeDrainSpec ⟨true, fun b => if b = "B2" then [⟨"r1", "t1"⟩] else []⟩
      (fun _ => 0) (fun _ => "t0") "s" (some "SystemModstamp") "1970-01-01" 5 7
      [("s", [("JobID", .s "J1"), ("BatchIDs", .arr ["B2"])])] ["B2"] :=
  resume_drains_persisted_batches _ _ _ _ _ _ _ _ _ _ rfl (by decide)

/-! ### C2: the job bookmark never passes the run's start timestamp -/

/-- `batch_ids.remove` touches only the `BatchIDs` key. -/
theorem stRaw_removeBatchId_ne_key (st : SState) (id b k : String)
    (hne : k ≠ "BatchIDs") :
    stRaw (removeBatchId st id b) id k = stRaw st id k := by
  unfold removeBatchId
  cases h : stRaw st id "BatchIDs" with
  | none => rfl
  | some v =>
      cases v with
      | arr xs => exact stRaw_writeBookmark_ne_key id "BatchIDs" k _ hne st
      | null => rfl
      | b x => rfl
      | i n => rfl
      | s x => rfl

/-- One record's bookmark fold step never passes the start time. -/
theorem bookmarkStep_le (strp : String → Int) (startTime : Int)
    (repKey : Option String) (cb : Int) (r : SRecord) (hcb : cb ≤ startTime) :
    bookmarkStep strp startTime repKey cb r ≤ startTime := by
  unfold bookmarkStep
  cases repKey with
  | none => exact hcb
  | some _ =>
      dsimp only []
      split
      · next h => exact h.1
      · exact hcb

/-- The whole per-batch fold never passes the start time. -/
theorem bookmarkFold_le (strp : String → Int) (startTime : Int)
    (repKey : Option String) :
    ∀ (l : List SRecord) (cb : Int), cb ≤ startTime →
      l.foldl (bookmarkStep strp startTime repKey) cb ≤ startTime := by
  intro l
  induction l with
  | nil => intro cb hcb; exact hcb
  | cons r t ih =>
      intro cb hcb
      exact ih _ (bookmarkStep_le strp startTime repKey cb r hcb)

/-- Resume-loop invariant: starting at or below the run's start time,
every flushed state carries a `JobHighestBookmarkSeen` written as the
formatting of a timestamp at or below the start time. -/
theorem drainBatches_bookmark_bound (env : ResumeEnv) (strp : String → Int)
    (strf : Int → String) (streamId : String) (repKey : Option String)
    (version startTime : Int) :
    ∀ (bids : List String) (cb : Int) (st : SState), cb ≤ startTime →
      ∀ s ∈ flushedStates (drainBatches env strp strf streamId repKey version
          startTime bids cb st).1,
        ∃ v, v ≤ startTime ∧
          stRaw s streamId "JobHighestBookmarkSeen" = some (.s (strf v)) := by
  intro bids
  induction bids with
  | nil => intro cb st _ s hs; exact absurd hs (by simp [drainBatches, flushedStates])
  | cons b rest ih =>
      intro cb st hcb s hs
      rw [drainBatches_cons, flushedStates_append, flushedStates_recmap,
        flushedStates_cons_state] at hs
      rcases List.mem_cons.mp (by simpa using hs) with h | h
      · subst h
        refine ⟨(env.batchResults b).foldl (bookmarkStep strp startTime repKey) cb,
          bookmarkFold_le strp startTime repKey _ cb hcb, ?_⟩
        rw [stRaw_removeBatchId_ne_key _ _ _ _ (by decide)]
        exact stRaw_writeBookmark_same _ _ _ _
      · exact ih _ _ (bookmarkFold_le strp startTime repKey _ cb hcb) s h

/-- The pk-chunked record loop of `sync_records`: every state flushed
inside the loop carries a `JobHighestBookmarkSeen` at or below the start
time (the write is guarded by `replication_key_value <= start_time`),
and every record is emitted regardless of its replication-key value. -/
theorem sync_records_chunk_loop_bound (strp : String → Int) (strf : Int → String)
    (id rk : String) (startTime : Int) (sv : Int) :
    ∀ (recs : List SRecord) (ms : List OutMsg) (st : SState) (cb : Int),
      recordPayloads ((recs.foldl (fun acc r =>
        let v := strp r.rkRaw
        if v ≤ startTime ∧ v > acc.2.2 then
          (acc.1 ++ [OutMsg.record id r.payload sv, OutMsg.stateMsg
            (writeBookmark acc.2.1 id "JobHighestBookmarkSeen" (.s (strf v)))],
           writeBookmark acc.2.1 id "JobHighestBookmarkSeen" (.s (strf v)), v)
        else (acc.1 ++ [OutMsg.record id r.payload sv], acc.2.1, acc.2.2))
        (ms, st, cb)).1) = recordPayloads ms ++ recs.map SRecord.payload ∧
      ((∀ s ∈ flushedStates ms, ∃ v, v ≤ startTime ∧
          stRaw s id "JobHighestBookmarkSeen" = some (.s (strf v))) →
        ∀ s ∈ flushedStates ((recs.foldl (fun acc r =>
          let v := strp r.rkRaw
          if v ≤ startTime ∧ v > acc.2.2 then
            (acc.1 ++ [OutMsg.record id r.payload sv, OutMsg.stateMsg
              (writeBookmark acc.2.1 id "JobHighestBookmarkSeen" (.s (strf v)))],
             writeBookmark acc.2.1 id "JobHighestBookmarkSeen" (.s (strf v)), v)
          else (acc.1 ++ [OutMsg.record id r.payload sv], acc.2.1, acc.2.2))
          (ms, st, cb)).1),
          ∃ v, v ≤ startTime ∧
            stRaw s id "JobHighestBookmarkSeen" = some (.s (strf v))) := by
  intro recs
  induction recs with
  | nil => intro ms st cb; exact ⟨by simp, fun h => h⟩
  | cons r t ih =>
      intro ms st cb
      simp only [List.foldl_cons]
      by_cases hg : strp r.rkRaw ≤ startTime ∧ strp r.rkRaw > cb
      · rw [if_pos hg]
        obtain ⟨ihrec, ihflush⟩ := ih
          (ms ++ [OutMsg.record id r.payload sv, OutMsg.stateMsg
            (writeBookmark st id "JobHighestBookmarkSeen" (.s (strf (strp r.rkRaw))))])
          (writeBookmark st id "JobHighestBookmarkSeen" (.s (strf (strp r.rkRaw))))
          (strp r.rkRaw)
        constructor
        · rw [ihrec, recordPayloads_append]
          simp [recordPayloads]
        · intro hms
          refine ihflush ?_
          intro s hs
          rw [flushedStates_append] at hs
          rcases List.mem_append.mp hs with h | h
          · exact hms s h
          · have : s = writeBookmark st id "JobHighestBookmarkSeen"
                (.s (strf (strp r.rkRaw))) := by
              simpa [flushedStates] using h
            subst this
            exact ⟨strp r.rkRaw, hg.1, stRaw_writeBookmark_same _ _ _ _⟩
      · rw [if_neg hg]
        obtain ⟨ihrec, ihflush⟩ := ih (ms ++ [OutMsg.record id r.payload sv]) st cb
        constructor
        · rw [ihrec, recordPayloads_append]
          simp [recordPayloads]
        · intro hms
          refine ihflush ?_
          intro s hs
          rw [flushedStates_append] at hs
          rcases List.mem_append.mp hs with h | h
          · exact hms s h
          · exact absurd h (by simp [flushedStates])

/-- The chunked `sync_records` loop is the fold the bound lemma speaks
about (the group version, start bookmark and message accumulator made
explicit). -/
theorem sync_records_chunked_eq_foldl (strp : String → Int) (strf : Int → String)
    (id rk defaultStart : String) (clock : Nat → Int) (i₀ : Nat)
    (startTime : Int) (recs : List SRecord) (state₀ : SState) :
    (sync_records strp strf id (some rk) true defaultStart clock i₀ startTime
        recs state₀).1 =
      (recs.foldl (fun acc r =>
        let v := strp r.rkRaw
        if v ≤ startTime ∧ v > acc.2.2 then
          (acc.1 ++ [OutMsg.record id r.payload
              (get_stream_version (some rk) id state₀ clock i₀).1,
            OutMsg.stateMsg
            (writeBookmark acc.2.1 id "JobHighestBookmarkSeen" (.s (strf v)))],
           writeBookmark acc.2.1 id "JobHighestBookmarkSeen" (.s (strf v)), v)
        else (acc.1 ++ [OutMsg.record id r.payload
            (get_stream_version (some rk) id state₀ clock i₀).1],
          acc.2.1, acc.2.2))
        ([], state₀, strpJ strp (get_start_date state₀ id (some rk) defaultStart))).1 :=
  rfl

/-- C2: neither drained stream ever persists a `JobHighestBookmarkSeen`
past the run's start timestamp.  For a bulk resume whose starting
bookmark (prior `JobHighestBookmarkSeen` or start date) is at or below
the run start, every flushed state carries a bookmark formatted from a
timestamp `<= start`, while all records — future-dated ones included —
are still emitted; the pk-chunked `sync_records` loop flushes only
bookmarks its guard has checked against the start time, again emitting
every record. -/
theorem job_highest_bookmark_never_exceeds_start :
    (∀ (env : ResumeEnv) (strp : String → Int) (strf : Int → String)
        (streamId : String) (repKey : Option String) (defaultStart : String)
        (startTime version : Int) (state : SState) (bids : List String),
      env.jobExists = true →
      stRaw state streamId "BatchIDs" = some (.arr bids) →
      strpJ strp (pyOr ((stRaw state streamId "JobHighestBookmarkSeen").getD .null)
        (get_start_date state streamId repKey defaultStart)) ≤ startTime →
      ∃ ms fin, resume_syncing_bulk_query env strp strf streamId repKey
          defaultStart startTime version state = some (ms, fin) ∧
        recordPayloads ms =
          (bids.map (fun b => (env.batchResults b).map SRecord.payload)).flatten ∧
        ∀ s ∈ flushedStates ms, ∃ v, v ≤ startTime ∧
          stRaw s streamId "JobHighestBookmarkSeen" = some (.s (strf v))) ∧
    (∀ (strp : String → Int) (strf : Int → String) (id rk defaultStart : String)
        (clock : Nat → Int) (i₀ : Nat) (startTime : Int)
        (recs : List SRecord) (state₀ : SState),
      recordPayloads (sync_records strp strf id (some rk) true defaultStart
          clock i₀ startTime recs state₀).1 = recs.map SRecord.payload ∧
      ∀ s ∈ flushedStates (sync_records strp strf id (some rk) true defaultStart
          clock i₀ startTime recs state₀).1,
        ∃ v, v ≤ startTime ∧
          stRaw s id "JobHighestBookmarkSeen" = some (.s (strf v))) := by
  constructor
  · intro env strp strf streamId repKey defaultStart startTime version state bids
      hjob hb hinit
    obtain ⟨hrec, -, -⟩ := drainBatches_spec env strp strf streamId repKey
      version startTime bids
      (strpJ strp (pyOr ((stRaw state streamId "JobHighestBookmarkSeen").getD .null)
        (get_start_date state streamId repKey defaultStart))) state hb
    refine ⟨(drainBatches env strp strf streamId repKey version startTime bids
        (strpJ strp (pyOr ((stRaw state streamId "JobHighestBookmarkSeen").getD .null)
          (get_start_date state streamId repKey defaultStart))) state).1,
      (drainBatches env strp strf streamId repKey version startTime bids
        (strpJ strp (pyOr ((stRaw state streamId "JobHighestBookmarkSeen").getD .null)
          (get_start_date state streamId repKey defaultStart))) state).2,
      ?_, hrec, ?_⟩
    · unfold resume_syncing_bulk_query
      rw [if_neg (by simp [hjob]), hb]
    · exact drainBatches_bookmark_bound env strp strf streamId repKey version
        startTime bids _ state hinit
  · intro strp strf id rk defaultStart clock i₀ startTime recs state₀
    have h := sync_records_chunk_loop_bound strp strf id rk startTime
      (get_stream_version (some rk) id state₀ clock i₀).1 recs [] state₀
      (strpJ strp (get_start_date state₀ id (some rk) defaultStart))
    constructor
    · rw [sync_records_chunked_eq_foldl, h.1]
      rfl
    · intro s hs
      rw [sync_records_chunked_eq_foldl] at hs
      exact h.2 (fun s' hs' => absurd hs' (by simp [flushedStates])) s hs

/-- Witness for C2: the resume part at the C1 scenario with a
future-dated record (replication key parsing past the run start), and
the pk-chunked part on one in-range record. -/
theorem job_highest_bookmark_never_exceeds_start_witness :
    (∃ ms fin, resume_syncing_bulk_query
        ⟨true, fun b => if b = "B2" then [⟨"r1", "9"⟩] else []⟩
        (fun x => if x = "9" then 9 else 0) (fun v => toString v) "s"
        (some "SystemModstamp") "1970-01-01" 5 7
        [("s", [("JobID", .s "J1"), ("BatchIDs", .arr ["B2"])])] = some (ms, fin) ∧
      recordPayloads ms =
        ((["B2"] : List String).map (fun b =>
          ((if b = "B2" then [⟨"r1", "9"⟩] else []) : List SRecord).map
            SRecord.payload)).flatten ∧
      ∀ s ∈ flushedStates ms, ∃ v, v ≤ (5 : Int) ∧
        stRaw s "s" "JobHighestBookmarkSeen" = some (.s (toString v))) ∧
    (recordPayloads (sync_records (fun _ => 3) (fun v => toString v) "s"
        (some "SystemModstamp") true "1970-01-01" (fun _ => 0) 0 5
        [⟨"r1", "t"⟩] []).1 = ([⟨"r1", "t"⟩] : List SRecord).map SRecord.payload ∧
      ∀ s ∈ flushedStates (sync_records (fun _ => 3) (fun v => toString v) "s"
          (some "SystemModstamp") true "1970-01-01" (fun _ => 0) 0 5
          [⟨"r1", "t"⟩] []).1,
        ∃ v, v ≤ (5 : Int) ∧
          stRaw s "s" "JobHighestBookmarkSeen" = some (.s (toString v))) :=
  ⟨job_highest_bookmark_never_exceeds_start.1
      ⟨true, fun b => if b = "B2" then [⟨"r1", "9"⟩] else []⟩
      (fun x => if x = "9" then 9 else 0) (fun v => toString v) "s"
      (some "SystemModstamp") "1970-01-01" 5 7
      [("s", [("JobID", .s "J1"), ("BatchIDs", .arr ["B2"])])] ["B2"]
      rfl (by decide) (by decide),
   job_highest_bookmark_never_exceeds_start.2 (fun _ => 3) (fun v => toString v)
     "s" "SystemModstamp" "1970-01-01" (fun _ => 0) 0 5 [⟨"r1", "t"⟩] []⟩

/-! ### C5: full-table streams and their activate-version pair -/

/-- With no replication key the record loop only appends record
messages. -/
theorem sync_records_norep_foldl (id : String) (sv : Int) :
    ∀ (recs : List SRecord) (ms : List OutMsg) (st : SState) (cb : Int),
      recs.foldl (fun (acc : List OutMsg × SState × Int) r =>
          (acc.1 ++ [OutMsg.record id r.payload sv], acc.2.1, acc.2.2)) (ms, st, cb) =
        (ms ++ recs.map (fun r => OutMsg.record id r.payload sv), st, cb) := by
  intro recs
  induction recs with
  | nil => intro ms st cb; simp
  | cons r t ih =>
      intro ms st cb
      rw [List.foldl_cons, ih]
      simp

/-- `sync_records` for a keyless, non-chunked stream: all records are
emitted under the minted version, then the closing activate-version is
emitted under the same version, and the persisted version is nulled. -/
theorem sync_records_norep (strp : String → Int) (strf : Int → String)
    (id defaultStart : String) (clock : Nat → Int) (i₀ : Nat) (startTime : Int)
    (recs : List SRecord) (state₀ : SState) :
    sync_records strp strf id none false defaultStart clock i₀ startTime recs state₀ =
      (recs.map (fun r => OutMsg.record id r.payload
          (get_stream_version none id state₀ clock i₀).1) ++
        [OutMsg.activate id (get_stream_version none id state₀ clock i₀).1],
       writeBookmark state₀ id "version" .null,
       (get_stream_version none id state₀ clock i₀).2) := by
  unfold sync_records
  dsimp only []
  rw [sync_records_norep_foldl]
  simp

/-- C5: a stream with no replication key, synced fresh with an empty
prior bookmark, emits exactly one activate-version (with the version
minted by `do_sync`) before any record, emits every record and then a
second activate-version under a version freshly minted inside
`sync_records`, and leaves the persisted stream version equal to null. -/
theorem full_table_fresh_run_versions (strp : String → Int) (strf : Int → String)
    (id defaultStart : String) (clock : Nat → Int) (i₀ : Nat) (startTime : Int)
    (recs : List SRecord) (state : SState)
    (hEmpty : stStream state id = none) :
    do_sync_stream_fresh strp strf id none false defaultStart clock i₀ startTime
        recs state =
      ([OutMsg.stateMsg state, OutMsg.schemaMsg id,
        OutMsg.activate id (clock (i₀ + 1))] ++
        recs.map (fun r => OutMsg.record id r.payload (clock (i₀ + 2))) ++
        [OutMsg.activate id (clock (i₀ + 2)),
         OutMsg.stateMsg (writeBookmark (writeBookmark state id "version"
           (.i (clock (i₀ + 1)))) id "version" .null)],
       writeBookmark (writeBookmark state id "version" (.i (clock (i₀ + 1))))
         id "version" .null,
       i₀ + 3) ∧
    stRaw (do_sync_stream_fresh strp strf id none false defaultStart clock i₀
        startTime recs state).2.1 id "version" = some .null := by
  have hv : getBookmark state id "version" = none := by
    unfold getBookmark stRaw
    rw [hEmpty]
    rfl
  have hgsv : get_stream_version none id state clock i₀ = (clock (i₀ + 1), i₀ + 2) := by
    unfold get_stream_version
    rw [hv]
  have hv₁ : getBookmark (writeBookmark state id "version" (.i (clock (i₀ + 1))))
      id "version" = some (.i (clock (i₀ + 1))) := by
    unfold getBookmark
    rw [stRaw_writeBookmark_same]
    rfl
  have hgsv₁ : get_stream_version none id
      (writeBookmark state id "version" (.i (clock (i₀ + 1)))) clock (i₀ + 2) =
      (clock (i₀ + 2), i₀ + 3) := by
    unfold get_stream_version
    rw [hv₁]
  have hmain : do_sync_stream_fresh strp strf id none false defaultStart clock i₀
      startTime recs state =
      ([OutMsg.stateMsg state, OutMsg.schemaMsg id,
        OutMsg.activate id (clock (i₀ + 1))] ++
        recs.map (fun r => OutMsg.record id r.payload (clock (i₀ + 2))) ++
        [OutMsg.activate id (clock (i₀ + 2)),
         OutMsg.stateMsg (writeBookmark (writeBookmark state id "version"
           (.i (clock (i₀ + 1)))) id "version" .null)],
       writeBookmark (writeBookmark state id "version" (.i (clock (i₀ + 1))))
         id "version" .null,
       i₀ + 3) := by
    unfold do_sync_stream_fresh
    rw [hgsv]
    dsimp only []
    rw [if_pos (by simp [hEmpty])]
    rw [sync_records_norep, hgsv₁]
    dsimp only []
    simp
  refine ⟨hmain, ?_⟩
  rw [hmain]
  exact stRaw_writeBookmark_same _ _ _ _

/-- Witness for C5 at the claim's concrete instance: three full-table
records, no prior bookmark — one activate-version before the records,
one after, final persisted version null. -/
theorem full_table_fresh_run_versions_witness :
    do_sync_stream_fresh (fun _ => 0) (fun v => toString v) "s" none false
        "1970-01-01" (fun n => (n : Int)) 0 5
        [⟨"r1", "a"⟩, ⟨"r2", "b"⟩, ⟨"r3", "c"⟩] [] =
      ([OutMsg.stateMsg [], OutMsg.schemaMsg "s", OutMsg.activate "s" 1] ++
        ([⟨"r1", "a"⟩, ⟨"r2", "b"⟩, ⟨"r3", "c"⟩] : List SRecord).map
          (fun r => OutMsg.record "s" r.payload 2) ++
        [OutMsg.activate "s" 2,
         OutMsg.stateMsg (writeBookmark (writeBookmark [] "s" "version" (.i 1))
           "s" "version" .null)],
       writeBookmark (writeBookmark [] "s" "version" (.i 1)) "s" "version" .null,
       3) ∧
    stRaw (do_sync_stream_fresh (fun _ => 0) (fun v => toString v) "s" none false
        "1970-01-01" (fun n => (n : Int)) 0 5
        [⟨"r1", "a"⟩, ⟨"r2", "b"⟩, ⟨"r3", "c"⟩] []).2.1 "s" "version" = some .null :=
  full_table_fresh_run_versions (fun _ => 0) (fun v => toString v) "s" "1970-01-01"
    (fun n => (n : Int)) 0 5 [⟨"r1", "a"⟩, ⟨"r2", "b"⟩, ⟨"r3", "c"⟩] [] rfl

/-! ### C4: stale persisted jobs -/

theorem bmPop_fst (k : String) : ∀ b : BMap, (bmPop b k).1 = bmRaw b k := by
  intro b
  induction b with
  | nil => rfl
  | cons kv rest ih =>
      obtain ⟨k₀, v₀⟩ := kv
      by_cases hk : k₀ = k
      · rw [bmPop, if_pos hk, bmRaw, if_pos hk]
      · rw [bmPop, if_neg hk, bmRaw, if_neg hk]
        exact ih

theorem bmPop_raw_ne (k k' : String) (hne : k' ≠ k) :
    ∀ b : BMap, bmRaw (bmPop b k).2 k' = bmRaw b k' := by
  intro b
  induction b with
  | nil => rfl
  | cons kv rest ih =>
      obtain ⟨k₀, v₀⟩ := kv
      by_cases hk : k₀ = k
      · rw [bmPop, if_pos hk]
        rw [bmRaw, if_neg (by rw [hk]; exact Ne.symm hne)]
      · rw [bmPop, if_neg hk]
        show bmRaw ((k₀, v₀) :: (bmPop rest k).2) k' = _
        rw [bmRaw, bmRaw]
        by_cases hk' : k₀ = k'
        · rw [if_pos hk', if_pos hk']
        · rw [if_neg hk', if_neg hk']
          exact ih

theorem bmRaw_not_mem (k : String) :
    ∀ b : BMap, k ∉ b.map Prod.fst → bmRaw b k = none := by
  intro b
  induction b with
  | nil => intro _; rfl
  | cons kv rest ih =>
      obtain ⟨k₀, v₀⟩ := kv
      intro hk
      rw [bmRaw, if_neg (by simp at hk; exact fun h => hk.1 h.symm)]
      exact ih (by simp at hk ⊢; exact hk.2)

theorem bmPop_raw_same (k : String) :
    ∀ b : BMap, (b.map Prod.fst).Nodup → bmRaw (bmPop b k).2 k = none := by
  intro b
  induction b with
  | nil => intro _; rfl
  | cons kv rest ih =>
      obtain ⟨k₀, v₀⟩ := kv
      intro hnd
      rw [List.map_cons] at hnd
      have hnd' := List.nodup_cons.mp hnd
      by_cases hk : k₀ = k
      · rw [bmPop, if_pos hk]
        refine bmRaw_not_mem k rest ?_
        subst hk
        exact hnd'.1
      · rw [bmPop, if_neg hk]
        show bmRaw ((k₀, v₀) :: (bmPop rest k).2) k = none
        rw [bmRaw, if_neg hk]
        exact ih hnd'.2

theorem bmPop_keys_sublist (k : String) :
    ∀ b : BMap, ((bmPop b k).2.map Prod.fst).Sublist (b.map Prod.fst) := by
  intro b
  induction b with
  | nil => simp [bmPop]
  | cons kv rest ih =>
      obtain ⟨k₀, v₀⟩ := kv
      by_cases hk : k₀ = k
      · rw [bmPop, if_pos hk]
        exact (List.sublist_cons_self _ _)
      · rw [bmPop, if_neg hk]
        show ((k₀ :: (bmPop rest k).2.map Prod.fst)).Sublist _
        exact List.Sublist.cons₂ _ ih

/-- Per-stream well-formedness: a Python dict has no duplicate keys. -/
def streamKeysNodup (st : SState) (id : String) : Prop :=
  ∀ b, stStream st id = some b → (b.map Prod.fst).Nodup

theorem popBookmark_fst (id k : String) :
    ∀ st : SState, (popBookmark st id k).1 = stRaw st id k := by
  intro st
  induction st with
  | nil => rfl
  | cons p rest ih =>
      obtain ⟨id₀, b₀⟩ := p
      by_cases hid : id₀ = id
      · rw [popBookmark, if_pos hid]
        unfold stRaw
        rw [stStream, if_pos hid]
        exact bmPop_fst k b₀
      · rw [popBookmark, if_neg hid]
        unfold stRaw
        rw [stStream, if_neg hid]
        exact ih

theorem stRaw_popBookmark_ne (id k k' : String) (hne : k' ≠ k) :
    ∀ st : SState, stRaw (popBookmark st id k).2 id k' = stRaw st id k' := by
  intro st
  induction st with
  | nil => rfl
  | cons p rest ih =>
      obtain ⟨id₀, b₀⟩ := p
      by_cases hid : id₀ = id
      · rw [popBookmark, if_pos hid]
        unfold stRaw
        rw [stStream, if_pos rfl, stStream, if_pos hid]
        exact bmPop_raw_ne k k' hne b₀
      · rw [popBookmark, if_neg hid]
        unfold stRaw
        rw [stStream, if_neg hid, stStream, if_neg hid]
        exact ih

theorem stRaw_popBookmark_same (id k : String) :
    ∀ st : SState, streamKeysNodup st id →
      stRaw (popBookmark st id k).2 id k = none := by
  intro st
  induction st with
  | nil => intro _; rfl
  | cons p rest ih =>
      obtain ⟨id₀, b₀⟩ := p
      intro hwf
      by_cases hid : id₀ = id
      · rw [popBookmark, if_pos hid]
        unfold stRaw
        rw [stStream, if_pos rfl]
        refine bmPop_raw_same k b₀ ?_
        exact hwf b₀ (by rw [stStream, if_pos hid])
      · rw [popBookmark, if_neg hid]
        unfold stRaw
        rw [stStream, if_neg hid]
        refine ih ?_
        intro b hb
        exact hwf b (by rw [stStream, if_neg hid]; exact hb)

theorem streamKeysNodup_popBookmark (id k : String) :
    ∀ st : SState, streamKeysNodup st id →
      streamKeysNodup (popBookmark st id k).2 id := by
  intro st
  induction st with
  | nil => intro h _ hb; exact h _ hb
  | cons p rest ih =>
      obtain ⟨id₀, b₀⟩ := p
      intro hwf b hb
      by_cases hid : id₀ = id
      · rw [popBookmark, if_pos hid] at hb
        rw [stStream, if_pos rfl] at hb
        obtain rfl : (bmPop b₀ k).2 = b := by simpa using hb
        exact ((hwf b₀ (by rw [stStream, if_pos hid])).sublist
          (bmPop_keys_sublist k b₀))
      · rw [popBookmark, if_neg hid] at hb
        rw [stStream, if_neg hid] at hb
        refine ih (fun b' hb' => hwf b' ?_) b hb
        rw [stStream, if_neg hid]
        exact hb'

/-- C4 counterexample: with a persisted job whose server-side job no
longer exists, the resume branch (which the dispatch selects, first
conjunct) completes without raising but emits no record at all (second
and third conjuncts), even though a fresh extraction of the very same
stream in the same situation would emit its record (fourth conjunct):
the fall-back to a fresh extraction does not happen within the current
run — the stream yields nothing until the next run. -/
theorem stale_job_no_fresh_extraction_counterexample :
    job_resumable [("s", [("JobID", .s "J1"), ("BatchIDs", .arr ["B1"]),
        ("SystemModstamp", .s "2020")])] "s" = true ∧
    do_sync_stream_resume ⟨false, fun _ => [⟨"r1", "t"⟩]⟩ (fun _ => 0)
        (fun _ => "T") "s" "SystemModstamp" "1970" 5 7
        [("s", [("JobID", .s "J1"), ("BatchIDs", .arr ["B1"]),
          ("SystemModstamp", .s "2020")])] =
      some ([OutMsg.stateMsg [("s", [("JobID", .s "J1"), ("BatchIDs", .arr ["B1"]),
              ("SystemModstamp", .s "2020")])], OutMsg.schemaMsg "s",
            OutMsg.stateMsg [("s", [("SystemModstamp", .s "2020")])]],
        [("s", [("SystemModstamp", .s "2020")])]) ∧
    recordPayloads [OutMsg.stateMsg [("s", [("JobID", .s "J1"),
        ("BatchIDs", .arr ["B1"]), ("SystemModstamp", .s "2020")])],
      OutMsg.schemaMsg "s",
      OutMsg.stateMsg [("s", [("SystemModstamp", .s "2020")])]] = [] ∧
    recordPayloads (do_sync_stream_fresh (fun _ => 0) (fun _ => "T") "s"
        (some "SystemModstamp") false "1970" (fun _ => 0) 0 5 [⟨"r1", "t"⟩]
        [("s", [("SystemModstamp", .s "2020")])]).1 = ["r1"] := by
  refine ⟨by decide, by decide, by decide, by decide⟩

/-- C4 amended: when the persisted job no longer exists server-side the
resume branch raises nothing and emits no records; the reconciliation
then strips `JobID`, `BatchIDs` and `JobHighestBookmarkSeen` from the
persisted state and resets the replication-key bookmark to the popped
job bookmark or the prior bookmark, after which the resume dispatch no
longer fires — so the fresh extraction happens only on a later pass over
the cleared state, not within the current run. -/
theorem stale_job_discard_and_defer (env : ResumeEnv) (strp : String → Int)
    (strf : Int → String) (id repKey defaultStart : String)
    (startTime version : Int) (state : SState)
    (hjob : env.jobExists = false)
    (h₁ : repKey ≠ "JobID") (h₂ : repKey ≠ "BatchIDs")
    (h₃ : repKey ≠ "JobHighestBookmarkSeen")
    (hwf : streamKeysNodup state id) :
    ∃ st', do_sync_stream_resume env strp strf id repKey defaultStart startTime
        version state =
      some ([OutMsg.stateMsg state, OutMsg.schemaMsg id, OutMsg.stateMsg st'], st') ∧
      stRaw st' id "JobID" = none ∧
      stRaw st' id "BatchIDs" = none ∧
      stRaw st' id "JobHighestBookmarkSeen" = none ∧
      stRaw st' id repKey =
        some (pyOr ((stRaw state id "JobHighestBookmarkSeen").getD .null)
          ((stRaw state id repKey).getD .null)) ∧
      job_resumable st' id = false := by
  have hres : resume_syncing_bulk_query env strp strf id (some repKey)
      defaultStart startTime version state = some ([], state) := by
    unfold resume_syncing_bulk_query
    rw [if_pos (by simp [hjob])]
  refine ⟨reconcile_resumed_job id repKey state, ?_, ?_, ?_, ?_, ?_, ?_⟩
  · unfold do_sync_stream_resume
    rw [hres]
    rfl
  all_goals unfold reconcile_resumed_job
  all_goals dsimp only []
  · rw [stRaw_writeBookmark_ne_key _ _ _ _ (Ne.symm h₁),
      stRaw_popBookmark_ne _ _ _ (Ne.symm h₁),
      stRaw_popBookmark_ne _ _ _ (by decide),
      stRaw_popBookmark_ne _ _ _ (by decide)]
    exact stRaw_popBookmark_same _ _ state hwf
  · rw [stRaw_writeBookmark_ne_key _ _ _ _ (Ne.symm h₂),
      stRaw_popBookmark_ne _ _ _ (Ne.symm h₂),
      stRaw_popBookmark_ne _ _ _ (by decide)]
    exact stRaw_popBookmark_same _ _ _
      (streamKeysNodup_popBookmark _ _ state hwf)
  · rw [stRaw_writeBookmark_ne_key _ _ _ _ (Ne.symm h₃),
      stRaw_popBookmark_ne _ _ _ (Ne.symm h₃)]
    exact stRaw_popBookmark_same _ _ _
      (streamKeysNodup_popBookmark _ _ _
        (streamKeysNodup_popBookmark _ _ state hwf))
  · rw [stRaw_writeBookmark_same]
    rw [popBookmark_fst id "JobHighestBookmarkSeen",
      stRaw_popBookmark_ne id "BatchIDs" "JobHighestBookmarkSeen" (by decide),
      stRaw_popBookmark_ne id "JobID" "JobHighestBookmarkSeen" (by decide),
      popBookmark_fst id repKey,
      stRaw_popBookmark_ne id "JobHighestBookmarkSeen" repKey h₃,
      stRaw_popBookmark_ne id "BatchIDs" repKey h₂,
      stRaw_popBookmark_ne id "JobID" repKey h₁]
  · unfold job_resumable getBookmark
    rw [stRaw_writeBookmark_ne_key _ _ _ _ (Ne.symm h₁),
      stRaw_popBookmark_ne _ _ _ (Ne.symm h₁),
      stRaw_popBookmark_ne _ _ _ (by decide),
      stRaw_popBookmark_ne _ _ _ (by decide),
      stRaw_popBookmark_same _ _ state hwf]
    rfl

/-- Witness for the amended C4 statement at the counterexample's
concrete stale job. -/
theorem stale_job_discard_and_defer_witness :
    ∃ st', do_sync_stream_resume ⟨false, fun _ => [⟨"r1", "t"⟩]⟩ (fun _ => 0)
        (fun _ => "T") "s" "SystemModstamp" "1970" 5 7
        [("s", [("JobID", .s "J1"), ("BatchIDs", .arr ["B1"]),
          ("SystemModstamp", .s "2020")])] =
      some ([OutMsg.stateMsg [("s", [("JobID", .s "J1"), ("BatchIDs", .arr ["B1"]),
              ("SystemModstamp", .s "2020")])], OutMsg.schemaMsg "s",
            OutMsg.stateMsg st'], st') ∧
      stRaw st' "s" "JobID" = none ∧
      stRaw st' "s" "BatchIDs" = none ∧
      stRaw st' "s" "JobHighestBookmarkSeen" = none ∧
      stRaw st' "s" "SystemModstamp" =
        some (pyOr ((stRaw [("s", [("JobID", .s "J1"), ("BatchIDs", .arr ["B1"]),
            ("SystemModstamp", .s "2020")])] "s" "JobHighestBookmarkSeen").getD .null)
          ((stRaw [("s", [("JobID", .s "J1"), ("BatchIDs", .arr ["B1"]),
            ("SystemModstamp", .s "2020")])] "s" "SystemModstamp").getD .null)) ∧
      job_resumable st' "s" = false :=
  stale_job_discard_and_defer ⟨false, fun _ => [⟨"r1", "t"⟩]⟩ (fun _ => 0)
    (fun _ => "T") "s" "SystemModstamp" "1970" 5 7
    [("s", [("JobID", .s "J1"), ("BatchIDs", .arr ["B1"]),
      ("SystemModstamp", .s "2020")])] rfl (by decide) (by decide) (by decide)
    (by
      intro b hb
      rw [stStream, if_pos rfl] at hb
      have hb' := (Option.some.inj hb)
      rw [← hb']
      decide)

/-! ### State load (`build_state`) and C7 -/

/-- The slice of a catalog entry `build_state` reads: stream id,
`replication-method` and `replication-key` metadata. -/
structure CatalogStream where
  tapStreamId : String
  replicationMethod : Option String
  replicationKey : Option String

/-- One catalog entry's pass of `build_state`: preserve the in-flight
job triple when `JobID` is truthy, then the incremental version and
replication-key bookmark when present, or a null version for a
`FULL_TABLE` stream whose version is absent.  All reads are from
`raw_state`; all writes go to the fresh accumulator. -/
def build_state_entry (raw : SState) (e : CatalogStream) (st : SState) : SState :=
  let id := e.tapStreamId
  let version := getBookmark raw id "version"
  let st₁ :=
    if JVal.truthy ((getBookmark raw id "JobID").getD .null) then
      writeBookmark (writeBookmark (writeBookmark st id "JobID"
          ((getBookmark raw id "JobID").getD .null))
        id "BatchIDs" ((getBookmark raw id "BatchIDs").getD .null))
        id "JobHighestBookmarkSeen"
        ((getBookmark raw id "JobHighestBookmarkSeen").getD .null)
    else st
  if e.replicationMethod = some "INCREMENTAL" then
    let rkv := match e.replicationKey with
               | none => none
               | some rk => getBookmark raw id rk
    let st₂ := match version with
               | none => st₁
               | some v => writeBookmark st₁ id "version" v
    match e.replicationKey, rkv with
    | some rk, some v => writeBookmark st₂ id rk v
    | _, _ => st₂
  else if e.replicationMethod = some "FULL_TABLE" ∧ version = none then
    writeBookmark st₁ id "version" .null
  else st₁

/-- `__init__.build_state`: an empty state accumulates one pass per
catalog entry, reading only the raw (loaded) state. -/
def build_state (raw : SState) (catalog : List CatalogStream) : SState :=
  catalog.foldl (fun st e => build_state_entry raw e st) []

/-- C7 counterexample: persisting a state holding an unknown key `foo`
(and a non-null full-table version), reloading it through `build_state`
and re-persisting does not reproduce the same state — the unknown key is
dropped, not preserved, so with the (deterministic) JSON serializer the
bytes differ.  Here the reload even returns the empty state. -/
theorem build_state_roundtrip_counterexample :
    build_state [("s", [("foo", .s "bar"), ("version", .i 5)])]
        [⟨"s", some "FULL_TABLE", none⟩] = [] ∧
    build_state [("s", [("foo", .s "bar"), ("version", .i 5)])]
        [⟨"s", some "FULL_TABLE", none⟩] ≠
      [("s", [("foo", .s "bar"), ("version", .i 5)])] ∧
    stRaw (build_state [("s", [("foo", .s "bar"), ("version", .i 5)])]
        [⟨"s", some "FULL_TABLE", none⟩]) "s" "foo" = none := by
  refine ⟨by decide, by decide, by decide⟩

/-- Collapsed (`get_bookmark`-style) lookup inside one stream's
bookmarks. -/
def bmGet (b : BMap) (k : String) : Option JVal :=
  collapse (bmRaw b k)

/-- `build_state_entry` restricted to the single stream it touches: the
bookmark map the entry writes, as a function of the stream's raw
bookmark map. -/
def perStreamBookmarks (e : CatalogStream) (b : BMap) : BMap :=
  let version := bmGet b "version"
  let m₁ :=
    if JVal.truthy ((bmGet b "JobID").getD .null) then
      bmWrite (bmWrite (bmWrite [] "JobID" ((bmGet b "JobID").getD .null))
        "BatchIDs" ((bmGet b "BatchIDs").getD .null))
        "JobHighestBookmarkSeen" ((bmGet b "JobHighestBookmarkSeen").getD .null)
    else []
  if e.replicationMethod = some "INCREMENTAL" then
    let rkv := match e.replicationKey with
               | none => none
               | some rk => bmGet b rk
    let m₂ := match version with
              | none => m₁
              | some v => bmWrite m₁ "version" v
    match e.replicationKey, rkv with
    | some rk, some v => bmWrite m₂ rk v
    | _, _ => m₂
  else if e.replicationMethod = some "FULL_TABLE" ∧ version = none then
    bmWrite m₁ "version" .null
  else m₁

/-- The state fragment a single entry contributes: nothing when it wrote
nothing, else one stream entry. -/
def shapePiece (id : String) (m : BMap) : SState :=
  match m with
  | [] => []
  | m => [(id, m)]

theorem getBookmark_eq_bmGet (raw : SState) (id k : String) :
    getBookmark raw id k = bmGet ((stStream raw id).getD []) k := by
  unfold getBookmark stRaw bmGet
  cases stStream raw id with
  | none => rfl
  | some b => rfl

theorem writeBookmark_absent (id k : String) (v : JVal) :
    ∀ st : SState, stStream st id = none →
      writeBookmark st id k v = st ++ [(id, [(k, v)])] := by
  intro st
  induction st with
  | nil => intro _; rfl
  | cons p rest ih =>
      obtain ⟨id₀, b₀⟩ := p
      intro habs
      by_cases hid : id₀ = id
      · rw [stStream, if_pos hid] at habs
        exact absurd habs (by simp)
      · rw [stStream, if_neg hid] at habs
        rw [writeBookmark, if_neg hid, ih habs]
        rfl

theorem writeBookmark_append_last (id k : String) (v : JVal) (bm : BMap) :
    ∀ st : SState, stStream st id = none →
      writeBookmark (st ++ [(id, bm)]) id k v = st ++ [(id, bmWrite bm k v)] := by
  intro st
  induction st with
  | nil => simp [writeBookmark]
  | cons p rest ih =>
      obtain ⟨id₀, b₀⟩ := p
      intro habs
      by_cases hid : id₀ = id
      · rw [stStream, if_pos hid] at habs
        exact absurd habs (by simp)
      · rw [stStream, if_neg hid] at habs
        show writeBookmark ((id₀, b₀) :: (rest ++ [(id, bm)])) id k v = _
        rw [writeBookmark, if_neg hid, ih habs]
        rfl

theorem bmWrite_ne_nil (k : String) (v : JVal) : ∀ m : BMap, bmWrite m k v ≠ [] := by
  intro m
  cases m with
  | nil => simp [bmWrite]
  | cons kv rest =>
      obtain ⟨k₀, v₀⟩ := kv
      by_cases hk : k₀ = k
      · rw [bmWrite, if_pos hk]
        simp
      · rw [bmWrite, if_neg hk]
        simp

theorem shapePiece_of_ne_nil (id : String) (m : BMap) (hm : m ≠ []) :
    shapePiece id m = [(id, m)] := by
  cases m with
  | nil => exact absurd rfl hm
  | cons kv rest => rfl

/-- Writing into the entry's own fresh stream extends the piece. -/
theorem write_shape0 (st : SState) (id k : String) (v : JVal)
    (habs : stStream st id = none) :
    writeBookmark st id k v = st ++ shapePiece id (bmWrite [] k v) := by
  rw [writeBookmark_absent id k v st habs]
  rfl

theorem write_shapeS (st : SState) (id k : String) (v : JVal) (m : BMap)
    (habs : stStream st id = none) :
    writeBookmark (st ++ shapePiece id m) id k v =
      st ++ shapePiece id (bmWrite m k v) := by
  cases m with
  | nil =>
      show writeBookmark (st ++ []) id k v = _
      rw [List.append_nil]
      exact write_shape0 st id k v habs
  | cons kv rest =>
      show writeBookmark (st ++ [(id, kv :: rest)]) id k v = _
      rw [writeBookmark_append_last id k v _ st habs,
        shapePiece_of_ne_nil id _ (bmWrite_ne_nil k v (kv :: rest))]

/-- Rewrite rule: the first write into the entry's fresh stream. -/
theorem write_shape0R (st : SState) (id : String)
    (habs : stStream st id = none) (k : String) (v : JVal) :
    writeBookmark st id k v = st ++ [(id, bmWrite [] k v)] :=
  writeBookmark_absent id k v st habs

/-- Rewrite rule: subsequent writes into the entry's appended stream. -/
theorem write_shapeSR (st : SState) (id : String)
    (habs : stStream st id = none) (k : String) (v : JVal) (m : BMap) :
    writeBookmark (st ++ [(id, m)]) id k v = st ++ [(id, bmWrite m k v)] :=
  writeBookmark_append_last id k v m st habs

/-- Rewrite rule: a written piece is never empty. -/
theorem shapePiece_bmWrite (id k : String) (v : JVal) (m : BMap) :
    shapePiece id (bmWrite m k v) = [(id, bmWrite m k v)] :=
  shapePiece_of_ne_nil id _ (bmWrite_ne_nil k v m)

theorem shapePiece_nil (id : String) : shapePiece id [] = [] := rfl

/-- One catalog entry's pass over a state not yet holding its stream is
exactly the appended per-stream piece. -/
theorem build_state_entry_shape (raw : SState) (e : CatalogStream) (st : SState)
    (habs : stStream st e.tapStreamId = none) :
    build_state_entry raw e st =
      st ++ shapePiece e.tapStreamId
        (perStreamBookmarks e ((stStream raw e.tapStreamId).getD [])) := by
  unfold build_state_entry perStreamBookmarks
  dsimp only []
  simp only [getBookmark_eq_bmGet raw e.tapStreamId]
  by_cases hJ : JVal.truthy ((bmGet ((stStream raw e.tapStreamId).getD [])
      "JobID").getD .null)
  case pos =>
    rw [if_pos hJ, if_pos hJ]
    by_cases hinc : e.replicationMethod = some "INCREMENTAL"
    case pos =>
      rw [if_pos hinc, if_pos hinc]
      cases herk : e.replicationKey with
      | none =>
          dsimp only []
          cases hv : bmGet ((stStream raw e.tapStreamId).getD []) "version" <;>
            simp [write_shape0R st e.tapStreamId habs,
              write_shapeSR st e.tapStreamId habs, shapePiece_bmWrite, shapePiece_nil]
      | some rk =>
          dsimp only []
          cases hrkv : bmGet ((stStream raw e.tapStreamId).getD []) rk <;>
            cases hv : bmGet ((stStream raw e.tapStreamId).getD []) "version" <;>
            simp [write_shape0R st e.tapStreamId habs,
              write_shapeSR st e.tapStreamId habs, shapePiece_bmWrite, shapePiece_nil]
    case neg =>
      rw [if_neg hinc, if_neg hinc]
      by_cases hft : e.replicationMethod = some "FULL_TABLE" ∧
          bmGet ((stStream raw e.tapStreamId).getD []) "version" = none
      case pos =>
        rw [if_pos hft, if_pos hft]
        simp [write_shape0R st e.tapStreamId habs,
          write_shapeSR st e.tapStreamId habs, shapePiece_bmWrite, shapePiece_nil]
      case neg =>
        rw [if_neg hft, if_neg hft]
        simp [write_shape0R st e.tapStreamId habs,
          write_shapeSR st e.tapStreamId habs, shapePiece_bmWrite, shapePiece_nil]
  case neg =>
    rw [if_neg hJ, if_neg hJ]
    by_cases hinc : e.replicationMethod = some "INCREMENTAL"
    case pos =>
      rw [if_pos hinc, if_pos hinc]
      cases herk : e.replicationKey with
      | none =>
          dsimp only []
          cases hv : bmGet ((stStream raw e.tapStreamId).getD []) "version" <;>
            simp [write_shape0R st e.tapStreamId habs,
              write_shapeSR st e.tapStreamId habs, shapePiece_bmWrite, shapePiece_nil]
      | some rk =>
          dsimp only []
          cases hrkv : bmGet ((stStream raw e.tapStreamId).getD []) rk <;>
            cases hv : bmGet ((stStream raw e.tapStreamId).getD []) "version" <;>
            simp [write_shape0R st e.tapStreamId habs,
              write_shapeSR st e.tapStreamId habs, shapePiece_bmWrite, shapePiece_nil]
    case neg =>
      rw [if_neg hinc, if_neg hinc]
      by_cases hft : e.replicationMethod = some "FULL_TABLE" ∧
          bmGet ((stStream raw e.tapStreamId).getD []) "version" = none
      case pos =>
        rw [if_pos hft, if_pos hft]
        simp [write_shape0R st e.tapStreamId habs,
          write_shapeSR st e.tapStreamId habs, shapePiece_bmWrite, shapePiece_nil]
      case neg =>
        rw [if_neg hft, if_neg hft]
        simp [write_shape0R st e.tapStreamId habs,
          write_shapeSR st e.tapStreamId habs, shapePiece_bmWrite, shapePiece_nil]

/-! #### Stability of the reload map

`perStreamBookmarks` only ever inspects five observables of a stream's
raw bookmark map: the three job-triple values (read through
`.getD .null`), the collapsed `version` lookup and the collapsed
replication-key lookup.  Factoring the map through these observables
reduces stability of repeated reloads to an idempotence fact about the
observables alone. -/

/-- The five observables of one stream's bookmark map that a
`build_state` pass reads. -/
structure Obs where
  jv : JVal
  bv : JVal
  hv : JVal
  ver : Option JVal
  rkv : Option JVal

/-- The observables, as read from a bookmark map. -/
def entryObs (e : CatalogStream) (b : BMap) : Obs where
  jv := (bmGet b "JobID").getD .null
  bv := (bmGet b "BatchIDs").getD .null
  hv := (bmGet b "JobHighestBookmarkSeen").getD .null
  ver := bmGet b "version"
  rkv := match e.replicationKey with
         | none => none
         | some rk => bmGet b rk

/-- `perStreamBookmarks`, rebuilt from the observables alone. -/
def entryMap (e : CatalogStream) (o : Obs) : BMap :=
  let m₁ :=
    if o.jv.truthy then
      bmWrite (bmWrite (bmWrite [] "JobID" o.jv) "BatchIDs" o.bv)
        "JobHighestBookmarkSeen" o.hv
    else []
  if e.replicationMethod = some "INCREMENTAL" then
    let m₂ := match o.ver with
              | none => m₁
              | some v => bmWrite m₁ "version" v
    match e.replicationKey, o.rkv with
    | some rk, some v => bmWrite m₂ rk v
    | _, _ => m₂
  else if e.replicationMethod = some "FULL_TABLE" ∧ o.ver = none then
    bmWrite m₁ "version" .null
  else m₁

theorem perStream_factor (e : CatalogStream) (b : BMap) :
    perStreamBookmarks e b = entryMap e (entryObs e b) := rfl

/-- How one rebuild transforms the `version` observable of an
incremental stream. -/
def verStep : Option JVal → Option JVal
  | none => none
  | some v => collapse (some v)

/-- How one rebuild transforms the replication-key observable of an
incremental stream. -/
def rkvStep (r : Option String) (t : Option JVal) : Option JVal :=
  match r, t with
  | some _, some v => collapse (some v)
  | _, _ => none

/-- The observables of a rebuilt map: the job triple survives only when
`JobID` was truthy, and `version`/replication-key lookups survive only
on incremental streams (re-collapsed, since they are stored raw). -/
def stabObs (e : CatalogStream) (o : Obs) : Obs where
  jv := if o.jv.truthy then o.jv else .null
  bv := if o.jv.truthy then o.bv else .null
  hv := if o.jv.truthy then o.hv else .null
  ver := if e.replicationMethod = some "INCREMENTAL" then verStep o.ver else none
  rkv := if e.replicationMethod = some "INCREMENTAL" then
      rkvStep e.replicationKey o.rkv
    else none

theorem collapse_none : collapse none = none := rfl

theorem collapse_some_null : collapse (some .null) = none := rfl

theorem collapse_getD_null (v : JVal) : (collapse (some v)).getD .null = v := by
  cases v <;> rfl

theorem verStep_idem (t : Option JVal) : verStep (verStep t) = verStep t := by
  cases t with
  | none => rfl
  | some v => cases v <;> rfl

theorem rkvStep_idem (r : Option String) (t : Option JVal) :
    rkvStep r (rkvStep r t) = rkvStep r t := by
  cases r with
  | none => rfl
  | some rk =>
      cases t with
      | none => rfl
      | some v => cases v <;> rfl

theorem truthy_null : JVal.truthy .null = false := rfl

theorem stabObs_idem (e : CatalogStream) (o : Obs) :
    stabObs e (stabObs e o) = stabObs e o := by
  unfold stabObs
  by_cases hJ : o.jv.truthy = true
  · by_cases hinc : e.replicationMethod = some "INCREMENTAL"
    · simp [hJ, hinc, verStep_idem, rkvStep_idem]
    · simp [hJ, hinc]
  · by_cases hinc : e.replicationMethod = some "INCREMENTAL"
    · simp [hJ, hinc, verStep_idem, rkvStep_idem, truthy_null]
    · simp [hJ, hinc, truthy_null]

/-- Reading the observables back out of a rebuilt map yields exactly the
stabilised observables, provided the replication key does not collide
with the four reserved bookmark keys. -/
theorem entryObs_entryMap (e : CatalogStream) (o : Obs)
    (h₁ : e.replicationKey ≠ some "JobID")
    (h₂ : e.replicationKey ≠ some "BatchIDs")
    (h₃ : e.replicationKey ≠ some "JobHighestBookmarkSeen")
    (h₄ : e.replicationKey ≠ some "version") :
    entryObs e (entryMap e o) = stabObs e o := by
  by_cases hJ : o.jv.truthy = true
  · by_cases hinc : e.replicationMethod = some "INCREMENTAL"
    · cases herk : e.replicationKey with
      | none =>
          cases hv : o.ver with
          | none =>
              simp [entryMap, entryObs, stabObs, verStep, rkvStep, bmGet,
                bmRaw, bmWrite, collapse_none, collapse_some_null,
                collapse_getD_null, hJ, hinc, herk, hv]
          | some v =>
              simp [entryMap, entryObs, stabObs, verStep, rkvStep, bmGet,
                bmRaw, bmWrite, collapse_none, collapse_some_null,
                collapse_getD_null, hJ, hinc, herk, hv]
      | some rk =>
          have hne₁ : rk ≠ "JobID" := fun hh => h₁ (hh ▸ herk)
          have hne₂ : rk ≠ "BatchIDs" := fun hh => h₂ (hh ▸ herk)
          have hne₃ : rk ≠ "JobHighestBookmarkSeen" := fun hh => h₃ (hh ▸ herk)
          have hne₄ : rk ≠ "version" := fun hh => h₄ (hh ▸ herk)
          cases hv : o.ver with
          | none =>
              cases hrkv : o.rkv with
              | none =>
                  simp [entryMap, entryObs, stabObs, verStep, rkvStep, bmGet,
                    bmRaw, bmWrite, collapse_none, collapse_some_null,
                    collapse_getD_null, hJ, hinc, herk, hv, hrkv,
                    hne₁, hne₂, hne₃, hne₄, Ne.symm hne₁, Ne.symm hne₂,
                    Ne.symm hne₃, Ne.symm hne₄]
              | some w =>
                  simp [entryMap, entryObs, stabObs, verStep, rkvStep, bmGet,
                    bmRaw, bmWrite, collapse_none, collapse_some_null,
                    collapse_getD_null, hJ, hinc, herk, hv, hrkv,
                    hne₁, hne₂, hne₃, hne₄, Ne.symm hne₁, Ne.symm hne₂,
                    Ne.symm hne₃, Ne.symm hne₄]
          | some v =>
              cases hrkv : o.rkv with
              | none =>
                  simp [entryMap, entryObs, stabObs, verStep, rkvStep, bmGet,
                    bmRaw, bmWrite, collapse_none, collapse_some_null,
                    collapse_getD_null, hJ, hinc, herk, hv, hrkv,
                    hne₁, hne₂, hne₃, hne₄, Ne.symm hne₁, Ne.symm hne₂,
                    Ne.symm hne₃, Ne.symm hne₄]
              | some w =>
                  simp [entryMap, entryObs, stabObs, verStep, rkvStep, bmGet,
                    bmRaw, bmWrite, collapse_none, collapse_some_null,
                    collapse_getD_null, hJ, hinc, herk, hv, hrkv,
                    hne₁, hne₂, hne₃, hne₄, Ne.symm hne₁, Ne.symm hne₂,
                    Ne.symm hne₃, Ne.symm hne₄]
    · by_cases hft : e.replicationMethod = some "FULL_TABLE" ∧ o.ver = none
      · cases herk : e.replicationKey with
        | none =>
            simp [entryMap, entryObs, stabObs, bmGet, bmRaw, bmWrite,
              collapse_none, collapse_some_null, collapse_getD_null,
              hJ, hinc, herk, hft.1, hft.2]
        | some rk =>
            have hne₁ : rk ≠ "JobID" := fun hh => h₁ (hh ▸ herk)
            have hne₂ : rk ≠ "BatchIDs" := fun hh => h₂ (hh ▸ herk)
            have hne₃ : rk ≠ "JobHighestBookmarkSeen" := fun hh => h₃ (hh ▸ herk)
            have hne₄ : rk ≠ "version" := fun hh => h₄ (hh ▸ herk)
            simp [entryMap, entryObs, stabObs, bmGet, bmRaw, bmWrite,
              collapse_none, collapse_some_null, collapse_getD_null,
              hJ, hinc, herk, hft.1, hft.2,
              hne₁, hne₂, hne₃, hne₄, Ne.symm hne₁, Ne.symm hne₂,
              Ne.symm hne₃, Ne.symm hne₄]
      · cases herk : e.replicationKey with
        | none =>
            simp [entryMap, entryObs, stabObs, bmGet, bmRaw, bmWrite,
              collapse_none, collapse_some_null, collapse_getD_null,
              hJ, hinc, herk, hft]
        | some rk =>
            have hne₁ : rk ≠ "JobID" := fun hh => h₁ (hh ▸ herk)
            have hne₂ : rk ≠ "BatchIDs" := fun hh => h₂ (hh ▸ herk)
            have hne₃ : rk ≠ "JobHighestBookmarkSeen" := fun hh => h₃ (hh ▸ herk)
            have hne₄ : rk ≠ "version" := fun hh => h₄ (hh ▸ herk)
            simp [entryMap, entryObs, stabObs, bmGet, bmRaw, bmWrite,
              collapse_none, collapse_some_null, collapse_getD_null,
              hJ, hinc, herk, hft,
              hne₁, hne₂, hne₃, hne₄, Ne.symm hne₁, Ne.symm hne₂,
              Ne.symm hne₃, Ne.symm hne₄]
  · by_cases hinc : e.replicationMethod = some "INCREMENTAL"
    · cases herk : e.replicationKey with
      | none =>
          cases hv : o.ver with
          | none =>
              simp [entryMap, entryObs, stabObs, verStep, rkvStep, bmGet,
                bmRaw, bmWrite, collapse_none, collapse_some_null,
                collapse_getD_null, truthy_null, hJ, hinc, herk, hv]
          | some v =>
              simp [entryMap, entryObs, stabObs, verStep, rkvStep, bmGet,
                bmRaw, bmWrite, collapse_none, collapse_some_null,
                collapse_getD_null, truthy_null, hJ, hinc, herk, hv]
      | some rk =>
          have hne₁ : rk ≠ "JobID" := fun hh => h₁ (hh ▸ herk)
          have hne₂ : rk ≠ "BatchIDs" := fun hh => h₂ (hh ▸ herk)
          have hne₃ : rk ≠ "JobHighestBookmarkSeen" := fun hh => h₃ (hh ▸ herk)
          have hne₄ : rk ≠ "version" := fun hh => h₄ (hh ▸ herk)
          cases hv : o.ver with
          | none =>
              cases hrkv : o.rkv with
              | none =>
                  simp [entryMap, entryObs, stabObs, verStep, rkvStep, bmGet,
                    bmRaw, bmWrite, collapse_none, collapse_some_null,
                    collapse_getD_null, truthy_null, hJ, hinc, herk, hv, hrkv,
                    hne₁, hne₂, hne₃, hne₄, Ne.symm hne₁, Ne.symm hne₂,
                    Ne.symm hne₃, Ne.symm hne₄]
              | some w =>
                  simp [entryMap, entryObs, stabObs, verStep, rkvStep, bmGet,
                    bmRaw, bmWrite, collapse_none, collapse_some_null,
                    collapse_getD_null, truthy_null, hJ, hinc, herk, hv, hrkv,
                    hne₁, hne₂, hne₃, hne₄, Ne.symm hne₁, Ne.symm hne₂,
                    Ne.symm hne₃, Ne.symm hne₄]
          | some v =>
              cases hrkv : o.rkv with
              | none =>
                  simp [entryMap, entryObs, stabObs, verStep, rkvStep, bmGet,
                    bmRaw, bmWrite, collapse_none, collapse_some_null,
                    collapse_getD_null, truthy_null, hJ, hinc, herk, hv, hrkv,
                    hne₁, hne₂, hne₃, hne₄, Ne.symm hne₁, Ne.symm hne₂,
                    Ne.symm hne₃, Ne.symm hne₄]
              | some w =>
                  simp [entryMap, entryObs, stabObs, verStep, rkvStep, bmGet,
                    bmRaw, bmWrite, collapse_none, collapse_some_null,
                    collapse_getD_null, truthy_null, hJ, hinc, herk, hv, hrkv,
                    hne₁, hne₂, hne₃, hne₄, Ne.symm hne₁, Ne.symm hne₂,
                    Ne.symm hne₃, Ne.symm hne₄]
    · by_cases hft : e.replicationMethod = some "FULL_TABLE" ∧ o.ver = none
      · cases herk : e.replicationKey with
        | none =>
            simp [entryMap, entryObs, stabObs, bmGet, bmRaw, bmWrite,
              collapse_none, collapse_some_null, collapse_getD_null,
              truthy_null, hJ, hinc, herk, hft.1, hft.2]
        | some rk =>
            have hne₁ : rk ≠ "JobID" := fun hh => h₁ (hh ▸ herk)
            have hne₂ : rk ≠ "BatchIDs" := fun hh => h₂ (hh ▸ herk)
            have hne₃ : rk ≠ "JobHighestBookmarkSeen" := fun hh => h₃ (hh ▸ herk)
            have hne₄ : rk ≠ "version" := fun hh => h₄ (hh ▸ herk)
            simp [entryMap, entryObs, stabObs, bmGet, bmRaw, bmWrite,
              collapse_none, collapse_some_null, collapse_getD_null,
              truthy_null, hJ, hinc, herk, hft.1, hft.2,
              hne₁, hne₂, hne₃, hne₄, Ne.symm hne₁, Ne.symm hne₂,
              Ne.symm hne₃, Ne.symm hne₄]
      · cases herk : e.replicationKey with
        | none =>
            simp [entryMap, entryObs, stabObs, bmGet, bmRaw, bmWrite,
              collapse_none, collapse_some_null, collapse_getD_null,
              truthy_null, hJ, hinc, herk, hft]
        | some rk =>
            have hne₁ : rk ≠ "JobID" := fun hh => h₁ (hh ▸ herk)
            have hne₂ : rk ≠ "BatchIDs" := fun hh => h₂ (hh ▸ herk)
            have hne₃ : rk ≠ "JobHighestBookmarkSeen" := fun hh => h₃ (hh ▸ herk)
            have hne₄ : rk ≠ "version" := fun hh => h₄ (hh ▸ herk)
            simp [entryMap, entryObs, stabObs, bmGet, bmRaw, bmWrite,
              collapse_none, collapse_some_null, collapse_getD_null,
              truthy_null, hJ, hinc, herk, hft,
              hne₁, hne₂, hne₃, hne₄, Ne.symm hne₁, Ne.symm hne₂,
              Ne.symm hne₃, Ne.symm hne₄]

/-- A third rebuild of one stream's bookmark map changes nothing beyond
the second: the reload map stabilises after two applications. -/
theorem perStream_stab (e : CatalogStream) (b : BMap)
    (h₁ : e.replicationKey ≠ some "JobID")
    (h₂ : e.replicationKey ≠ some "BatchIDs")
    (h₃ : e.replicationKey ≠ some "JobHighestBookmarkSeen")
    (h₄ : e.replicationKey ≠ some "version") :
    perStreamBookmarks e (perStreamBookmarks e (perStreamBookmarks e b)) =
      perStreamBookmarks e (perStreamBookmarks e b) := by
  have hfac : ∀ b' : BMap, perStreamBookmarks e b' = entryMap e (entryObs e b') :=
    fun b' => perStream_factor e b'
  have hoe : ∀ o : Obs, entryObs e (entryMap e o) = stabObs e o :=
    fun o => entryObs_entryMap e o h₁ h₂ h₃ h₄
  rw [hfac b, hfac (entryMap e (entryObs e b)),
    hfac (entryMap e (entryObs e (entryMap e (entryObs e b))))]
  simp only [hoe]
  rw [stabObs_idem]

/-- The state fragment contributed by one catalog entry. -/
def entryPiece (raw : SState) (e : CatalogStream) : SState :=
  shapePiece e.tapStreamId
    (perStreamBookmarks e ((stStream raw e.tapStreamId).getD []))

/-- Concatenation of the per-entry fragments over a catalog. -/
def entryPieces (raw : SState) : List CatalogStream → SState
  | [] => []
  | e :: rest => entryPiece raw e ++ entryPieces raw rest

theorem stStream_append (a b : SState) (id : String) :
    stStream (a ++ b) id =
      match stStream a id with
      | some m => some m
      | none => stStream b id := by
  induction a with
  | nil => rfl
  | cons p rest ih =>
      obtain ⟨id₀, m₀⟩ := p
      by_cases hid : id₀ = id
      · show stStream ((id₀, m₀) :: (rest ++ b)) id = _
        rw [stStream, if_pos hid, stStream, if_pos hid]
      · show stStream ((id₀, m₀) :: (rest ++ b)) id = _
        rw [stStream, if_neg hid, stStream, if_neg hid, ih]

theorem stStream_shapePiece_ne (i id : String) (m : BMap) (h : i ≠ id) :
    stStream (shapePiece i m) id = none := by
  cases m with
  | nil => rfl
  | cons kv rest =>
      show stStream [(i, kv :: rest)] id = _
      rw [stStream, if_neg h]
      rfl

theorem stStream_entryPieces_notin (raw : SState) :
    ∀ (cat : List CatalogStream) (id : String),
      id ∉ cat.map (fun e => e.tapStreamId) →
      stStream (entryPieces raw cat) id = none := by
  intro cat
  induction cat with
  | nil => intro id _; rfl
  | cons e rest ih =>
      intro id hid
      rw [List.map_cons, List.mem_cons] at hid
      push_neg at hid
      show stStream (entryPiece raw e ++ entryPieces raw rest) id = _
      rw [stStream_append, entryPiece,
        stStream_shapePiece_ne _ _ _ (fun hh => hid.1 hh.symm)]
      exact ih id hid.2

/-- Folding the catalog over a state free of its stream ids appends one
fragment per entry. -/
theorem build_state_entry_fold (raw : SState) :
    ∀ (cat : List CatalogStream) (st₀ : SState),
      (∀ e ∈ cat, stStream st₀ e.tapStreamId = none) →
      (cat.map (fun e => e.tapStreamId)).Nodup →
      cat.foldl (fun st e => build_state_entry raw e st) st₀ =
        st₀ ++ entryPieces raw cat := by
  intro cat
  induction cat with
  | nil => intro st₀ _ _; simp [entryPieces]
  | cons e rest ih =>
      intro st₀ habs hnd
      rw [List.map_cons, List.nodup_cons] at hnd
      rw [List.foldl_cons,
        build_state_entry_shape raw e st₀ (habs e (List.mem_cons_self e rest))]
      have hfresh : ∀ e' ∈ rest,
          stStream (st₀ ++ shapePiece e.tapStreamId
            (perStreamBookmarks e ((stStream raw e.tapStreamId).getD [])))
            e'.tapStreamId = none := by
        intro e' he'
        have hne : e.tapStreamId ≠ e'.tapStreamId := fun hh =>
          hnd.1 (hh ▸ List.mem_map_of_mem (fun x => x.tapStreamId) he')
        rw [stStream_append, habs e' (List.mem_cons_of_mem e he'),
          stStream_shapePiece_ne _ _ _ hne]
      rw [ih _ hfresh hnd.2, List.append_assoc]
      rfl

theorem build_state_eq_pieces (raw : SState) (cat : List CatalogStream)
    (hnd : (cat.map (fun e => e.tapStreamId)).Nodup) :
    build_state raw cat = entryPieces raw cat := by
  rw [build_state, build_state_entry_fold raw cat [] (fun e _ => rfl) hnd]
  rfl

/-- What each catalog entry sees in the rebuilt state: exactly its own
rebuilt bookmark map (an entry that wrote nothing reads back the empty
map it produced). -/
theorem stStream_entryPieces (raw : SState) :
    ∀ cat : List CatalogStream,
      (cat.map (fun e => e.tapStreamId)).Nodup →
      ∀ e ∈ cat,
        (stStream (entryPieces raw cat) e.tapStreamId).getD [] =
          perStreamBookmarks e ((stStream raw e.tapStreamId).getD []) := by
  intro cat
  induction cat with
  | nil => intro _ e he; exact absurd he (List.not_mem_nil e)
  | cons e₀ rest ih =>
      intro hnd e he
      rw [List.map_cons, List.nodup_cons] at hnd
      rcases List.mem_cons.mp he with heq | hmem
      · subst heq
        show (stStream (entryPiece raw e ++ entryPieces raw rest)
          e.tapStreamId).getD [] = _
        rw [stStream_append, entryPiece]
        cases hM : perStreamBookmarks e ((stStream raw e.tapStreamId).getD []) with
        | nil =>
            rw [shapePiece_nil]
            show (stStream (entryPieces raw rest) e.tapStreamId).getD [] = _
            rw [stStream_entryPieces_notin raw rest e.tapStreamId hnd.1]
            rfl
        | cons kv m =>
            rw [shapePiece_of_ne_nil _ _ (by simp), stStream, if_pos rfl]
            rfl
      · have hne : e₀.tapStreamId ≠ e.tapStreamId := fun hh =>
          hnd.1 (hh ▸ List.mem_map_of_mem (fun x => x.tapStreamId) hmem)
        show (stStream (entryPiece raw e₀ ++ entryPieces raw rest)
          e.tapStreamId).getD [] = _
        rw [stStream_append, entryPiece, stStream_shapePiece_ne _ _ _ hne]
        exact ih hnd.2 e hmem

theorem entryPieces_congr (raw₁ raw₂ : SState) :
    ∀ cat : List CatalogStream,
      (∀ e ∈ cat,
        perStreamBookmarks e ((stStream raw₁ e.tapStreamId).getD []) =
          perStreamBookmarks e ((stStream raw₂ e.tapStreamId).getD [])) →
      entryPieces raw₁ cat = entryPieces raw₂ cat := by
  intro cat
  induction cat with
  | nil => intro _; rfl
  | cons e rest ih =>
      intro h
      show entryPiece raw₁ e ++ entryPieces raw₁ rest = _
      rw [entryPiece, h e (List.mem_cons_self e rest),
        ih (fun e' he' => h e' (List.mem_cons_of_mem e he'))]
      rfl

theorem bmRaw_bmWrite_cases (m : BMap) (k₀ k : String) (w v : JVal)
    (h : bmRaw (bmWrite m k₀ w) k = some v) : k = k₀ ∨ bmRaw m k = some v := by
  by_cases hkk : k₀ = k
  · exact Or.inl hkk.symm
  · right
    rw [bmRaw_bmWrite_ne k₀ k w (fun hh => hkk hh.symm) m] at h
    exact h

theorem bmRaw_triple_keys (jv bv hvv : JVal) (k : String) (v : JVal)
    (hk : bmRaw (bmWrite (bmWrite (bmWrite [] "JobID" jv) "BatchIDs" bv)
      "JobHighestBookmarkSeen" hvv) k = some v) :
    k = "JobID" ∨ k = "BatchIDs" ∨ k = "JobHighestBookmarkSeen" := by
  rcases bmRaw_bmWrite_cases _ _ _ _ _ hk with h | hk₂
  · exact Or.inr (Or.inr h)
  rcases bmRaw_bmWrite_cases _ _ _ _ _ hk₂ with h | hk₃
  · exact Or.inr (Or.inl h)
  rcases bmRaw_bmWrite_cases _ _ _ _ _ hk₃ with h | hk₄
  · exact Or.inl h
  · exact absurd hk₄ (by simp [bmRaw])

theorem bmRaw_jobTriple_keys (jv bv hvv : JVal) (c : Prop) [Decidable c]
    (k : String) (v : JVal)
    (hk : bmRaw (if c then bmWrite (bmWrite (bmWrite [] "JobID" jv)
      "BatchIDs" bv) "JobHighestBookmarkSeen" hvv else []) k = some v) :
    k = "JobID" ∨ k = "BatchIDs" ∨ k = "JobHighestBookmarkSeen" := by
  by_cases hc : c
  · rw [if_pos hc] at hk
    exact bmRaw_triple_keys jv bv hvv k v hk
  · rw [if_neg hc] at hk
    exact absurd hk (by simp [bmRaw])

theorem triple_to_five {k : String} {P Q : Prop}
    (h : k = "JobID" ∨ k = "BatchIDs" ∨ k = "JobHighestBookmarkSeen") :
    k = "JobID" ∨ k = "BatchIDs" ∨ k = "JobHighestBookmarkSeen" ∨ P ∨ Q := by
  rcases h with h | h | h
  · exact Or.inl h
  · exact Or.inr (Or.inl h)
  · exact Or.inr (Or.inr (Or.inl h))

/-- Every key surviving one rebuild of a stream's bookmark map is one of
the four reserved keys or the stream's replication key. -/
theorem entryMap_raw_keys (e : CatalogStream) (o : Obs) (k : String) (v : JVal)
    (hk : bmRaw (entryMap e o) k = some v) :
    k = "JobID" ∨ k = "BatchIDs" ∨ k = "JobHighestBookmarkSeen" ∨
      k = "version" ∨ e.replicationKey = some k := by
  unfold entryMap at hk
  dsimp only [] at hk
  by_cases hinc : e.replicationMethod = some "INCREMENTAL"
  · rw [if_pos hinc] at hk
    cases herk : e.replicationKey with
    | none =>
        rw [herk] at hk
        dsimp only [] at hk
        cases hv : o.ver with
        | none =>
            rw [hv] at hk
            dsimp only [] at hk
            exact triple_to_five (bmRaw_jobTriple_keys _ _ _ _ _ _ hk)
        | some v₀ =>
            rw [hv] at hk
            dsimp only [] at hk
            rcases bmRaw_bmWrite_cases _ _ _ _ _ hk with h | hk₂
            · exact Or.inr (Or.inr (Or.inr (Or.inl h)))
            · exact triple_to_five (bmRaw_jobTriple_keys _ _ _ _ _ _ hk₂)
    | some rk =>
        rw [herk] at hk
        cases hrkv : o.rkv with
        | none =>
            rw [hrkv] at hk
            dsimp only [] at hk
            cases hv : o.ver with
            | none =>
                rw [hv] at hk
                dsimp only [] at hk
                exact triple_to_five (bmRaw_jobTriple_keys _ _ _ _ _ _ hk)
            | some v₀ =>
                rw [hv] at hk
                dsimp only [] at hk
                rcases bmRaw_bmWrite_cases _ _ _ _ _ hk with h | hk₂
                · exact Or.inr (Or.inr (Or.inr (Or.inl h)))
                · exact triple_to_five (bmRaw_jobTriple_keys _ _ _ _ _ _ hk₂)
        | some w =>
            rw [hrkv] at hk
            dsimp only [] at hk
            rcases bmRaw_bmWrite_cases _ _ _ _ _ hk with h | hk₂
            · refine Or.inr (Or.inr (Or.inr (Or.inr ?_)))
              rw [h]
            · cases hv : o.ver with
              | none =>
                  rw [hv] at hk₂
                  dsimp only [] at hk₂
                  exact triple_to_five (bmRaw_jobTriple_keys _ _ _ _ _ _ hk₂)
              | some v₀ =>
                  rw [hv] at hk₂
                  dsimp only [] at hk₂
                  rcases bmRaw_bmWrite_cases _ _ _ _ _ hk₂ with h | hk₃
                  · exact Or.inr (Or.inr (Or.inr (Or.inl h)))
                  · exact triple_to_five (bmRaw_jobTriple_keys _ _ _ _ _ _ hk₃)
  · rw [if_neg hinc] at hk
    by_cases hft : e.replicationMethod = some "FULL_TABLE" ∧ o.ver = none
    · rw [if_pos hft] at hk
      rcases bmRaw_bmWrite_cases _ _ _ _ _ hk with h | hk₂
      · exact Or.inr (Or.inr (Or.inr (Or.inl h)))
      · exact triple_to_five (bmRaw_jobTriple_keys _ _ _ _ _ _ hk₂)
    · rw [if_neg hft] at hk
      exact triple_to_five (bmRaw_jobTriple_keys _ _ _ _ _ _ hk)

/-- Every stored key of the concatenated fragments comes from the entry
owning the stream. -/
theorem stRaw_entryPieces_keys (raw : SState) :
    ∀ (cat : List CatalogStream) (id k : String) (v : JVal),
      stRaw (entryPieces raw cat) id k = some v →
      ∃ e ∈ cat, e.tapStreamId = id ∧
        bmRaw (perStreamBookmarks e ((stStream raw e.tapStreamId).getD []))
          k = some v := by
  intro cat
  induction cat with
  | nil =>
      intro id k v h
      simp [entryPieces, stRaw, stStream] at h
  | cons e rest ih =>
      intro id k v h
      have hsplit : entryPieces raw (e :: rest) =
          entryPiece raw e ++ entryPieces raw rest := rfl
      rw [stRaw, hsplit, stStream_append] at h
      cases hS : stStream (entryPiece raw e) id with
      | none =>
          rw [hS] at h
          dsimp only [] at h
          have h' : stRaw (entryPieces raw rest) id k = some v := h
          obtain ⟨e', he', hid, hb⟩ := ih id k v h'
          exact ⟨e', List.mem_cons_of_mem e he', hid, hb⟩
      | some m =>
          rw [hS] at h
          dsimp only [] at h
          rw [entryPiece] at hS
          cases hM : perStreamBookmarks e ((stStream raw e.tapStreamId).getD [])
            with
          | nil =>
              rw [hM, shapePiece_nil] at hS
              exact absurd hS (by simp [stStream])
          | cons kv mrest =>
              rw [hM, shapePiece_of_ne_nil _ _ (by simp)] at hS
              by_cases hid : e.tapStreamId = id
              · rw [stStream, if_pos hid] at hS
                have hm := Option.some.inj hS
                refine ⟨e, List.mem_cons_self e rest, hid, ?_⟩
                rw [hM, hm]
                exact h
              · rw [stStream, if_neg hid] at hS
                exact absurd hS (by simp [stStream])

/-- C7: the load/save cycle of the persisted state is not idempotent
from the first pass and drops unknown keys (see
`build_state_roundtrip_counterexample`), but it does stabilise: a third
pass of `build_state` over its own output reproduces the second pass
exactly, and every key surviving a pass is one of the four
`build_state`-whitelisted bookmark keys (`JobID`, `BatchIDs`,
`JobHighestBookmarkSeen`, `version`) or the stream's replication key —
unknown keys are never preserved.  Hypotheses: catalog stream ids are
distinct and no replication key collides with a whitelisted key. -/
theorem build_state_stable_and_projects (raw : SState)
    (cat : List CatalogStream)
    (hnd : (cat.map (fun e => e.tapStreamId)).Nodup)
    (hrk : ∀ e ∈ cat,
      e.replicationKey ≠ some "JobID" ∧ e.replicationKey ≠ some "BatchIDs" ∧
      e.replicationKey ≠ some "JobHighestBookmarkSeen" ∧
      e.replicationKey ≠ some "version") :
    build_state (build_state (build_state raw cat) cat) cat =
      build_state (build_state raw cat) cat ∧
    ∀ id k v, stRaw (build_state raw cat) id k = some v →
      k = "JobID" ∨ k = "BatchIDs" ∨ k = "JobHighestBookmarkSeen" ∨
      k = "version" ∨ ∃ e ∈ cat, e.tapStreamId = id ∧
        e.replicationKey = some k := by
  constructor
  · have key : ∀ e ∈ cat,
        perStreamBookmarks e
          ((stStream (build_state (build_state raw cat) cat)
            e.tapStreamId).getD []) =
          perStreamBookmarks e
            ((stStream (build_state raw cat) e.tapStreamId).getD []) := by
      intro e he
      have hb2 : (stStream (build_state (build_state raw cat) cat)
          e.tapStreamId).getD [] =
          perStreamBookmarks e
            ((stStream (build_state raw cat) e.tapStreamId).getD []) := by
        rw [build_state_eq_pieces (build_state raw cat) cat hnd]
        exact stStream_entryPieces (build_state raw cat) cat hnd e he
      have hb1 : (stStream (build_state raw cat) e.tapStreamId).getD [] =
          perStreamBookmarks e ((stStream raw e.tapStreamId).getD []) := by
        rw [build_state_eq_pieces raw cat hnd]
        exact stStream_entryPieces raw cat hnd e he
      rw [hb2, hb1]
      exact perStream_stab e _ (hrk e he).1 (hrk e he).2.1
        (hrk e he).2.2.1 (hrk e he).2.2.2
    calc build_state (build_state (build_state raw cat) cat) cat
        = entryPieces (build_state (build_state raw cat) cat) cat :=
          build_state_eq_pieces _ cat hnd
      _ = entryPieces (build_state raw cat) cat :=
          entryPieces_congr _ _ cat key
      _ = build_state (build_state raw cat) cat :=
          (build_state_eq_pieces _ cat hnd).symm
  · intro id k v hkv
    rw [build_state_eq_pieces raw cat hnd] at hkv
    obtain ⟨e, he, hid, hbm⟩ := stRaw_entryPieces_keys raw cat id k v hkv
    have hk := entryMap_raw_keys e
      (entryObs e ((stStream raw e.tapStreamId).getD [])) k v
      (by rw [← perStream_factor]; exact hbm)
    rcases hk with h | h | h | h | h
    · exact Or.inl h
    · exact Or.inr (Or.inl h)
    · exact Or.inr (Or.inr (Or.inl h))
    · exact Or.inr (Or.inr (Or.inr (Or.inl h)))
    · exact Or.inr (Or.inr (Or.inr (Or.inr ⟨e, he, hid, h⟩)))

theorem build_state_stable_and_projects_witness :
    ((([⟨"a", some "FULL_TABLE", none⟩,
        ⟨"t", some "INCREMENTAL", some "SystemModstamp"⟩] :
        List CatalogStream).map (fun e => e.tapStreamId)).Nodup ∧
      ∀ e ∈ ([⟨"a", some "FULL_TABLE", none⟩,
          ⟨"t", some "INCREMENTAL", some "SystemModstamp"⟩] :
          List CatalogStream),
        e.replicationKey ≠ some "JobID" ∧ e.replicationKey ≠ some "BatchIDs" ∧
        e.replicationKey ≠ some "JobHighestBookmarkSeen" ∧
        e.replicationKey ≠ some "version") ∧
    (build_state (build_state (build_state
        [("a", [("version", .i 5)]),
         ("t", [("SystemModstamp", .s "2023-01-02T00:00:00.000Z"),
                ("JobID", .s "750x0"), ("BatchIDs", .arr ["b1"]),
                ("JobHighestBookmarkSeen", .s "2023-01-01T00:00:00.000Z")])]
        [⟨"a", some "FULL_TABLE", none⟩,
         ⟨"t", some "INCREMENTAL", some "SystemModstamp"⟩])
        [⟨"a", some "FULL_TABLE", none⟩,
         ⟨"t", some "INCREMENTAL", some "SystemModstamp"⟩])
        [⟨"a", some "FULL_TABLE", none⟩,
         ⟨"t", some "INCREMENTAL", some "SystemModstamp"⟩] =
      build_state (build_state
        [("a", [("version", .i 5)]),
         ("t", [("SystemModstamp", .s "2023-01-02T00:00:00.000Z"),
                ("JobID", .s "750x0"), ("BatchIDs", .arr ["b1"]),
                ("JobHighestBookmarkSeen", .s "2023-01-01T00:00:00.000Z")])]
        [⟨"a", some "FULL_TABLE", none⟩,
         ⟨"t", some "INCREMENTAL", some "SystemModstamp"⟩])
        [⟨"a", some "FULL_TABLE", none⟩,
         ⟨"t", some "INCREMENTAL", some "SystemModstamp"⟩] ∧
      ∀ id k v, stRaw (build_state
        [("a", [("version", .i 5)]),
         ("t", [("SystemModstamp", .s "2023-01-02T00:00:00.000Z"),
                ("JobID", .s "750x0"), ("BatchIDs", .arr ["b1"]),
                ("JobHighestBookmarkSeen", .s "2023-01-01T00:00:00.000Z")])]
        [⟨"a", some "FULL_TABLE", none⟩,
         ⟨"t", some "INCREMENTAL", some "SystemModstamp"⟩]) id k = some v →
        k = "JobID" ∨ k = "BatchIDs" ∨ k = "JobHighestBookmarkSeen" ∨
        k = "version" ∨
        ∃ e ∈ ([⟨"a", some "FULL_TABLE", none⟩,
            ⟨"t", some "INCREMENTAL", some "SystemModstamp"⟩] :
            List CatalogStream),
          e.tapStreamId = id ∧ e.replicationKey = some k) :=
  ⟨⟨by decide, by decide⟩,
    build_state_stable_and_projects
      [("a", [("version", .i 5)]),
       ("t", [("SystemModstamp", .s "2023-01-02T00:00:00.000Z"),
              ("JobID", .s "750x0"), ("BatchIDs", .arr ["b1"]),
              ("JobHighestBookmarkSeen", .s "2023-01-01T00:00:00.000Z")])]
      [⟨"a", some "FULL_TABLE", none⟩,
       ⟨"t", some "INCREMENTAL", some "SystemModstamp"⟩]
      (by decide) (by decide)⟩

end TapSF
